import Mathlib

/-!
Verification of the BVM model loader (`src/common/src/io/BvmLoader.cpp`) and the
BTF texture reader (`src/common/src/io/ReadBtfTexture.cpp`).

The binary cursor (`io/Reader`) is an external collaborator of the code under
verification; we embed it as a random-access source of typed tokens: one token
per primitive read performed by the code (32-bit word, 16-bit word, float,
fixed-length string, raw byte block).  Machine integers are modelled as
`Nat`/`Int` with explicit casts (`toSigned32`, `szOfI32`, ...) mirroring the
C++ conversions; IEEE floats are modelled as exact rationals, which is faithful
here because the loaders only ever store the results of fixed arithmetic
expressions and the claims concern exactly those expressions.  A read past the
end of the available tokens models the `ReaderException` raised by the cursor,
which the top-level entry points convert into a truncation error.
-/


namespace BvmSpec

/-- One primitive read's worth of input data. -/
inductive Tok where
  | u32 : Nat → Tok
  | u16 : Nat → Tok
  | f32 : Rat → Tok
  | str : String → Tok
  | bytes : List Nat → Tok
deriving DecidableEq

/-- The byte cursor: a random-access source (token stream found at each seek
offset) plus the tokens remaining at the current position. -/
structure Cursor where
  src : Nat → List Tok
  cur : List Tok

/-- `Reader::seekFromBegin`. -/
def seekTo (o : Nat) (c : Cursor) : Cursor :=
  { c with cur := c.src o }

/-- Interpret a raw 32-bit word as the signed `int32_t` the code reads. -/
def toSigned32 (v : Nat) : Int :=
  if v < 2 ^ 31 then (v : Int) else (v : Int) - 2 ^ 32

/-- Interpret a raw 16-bit word as a signed `int16_t`. -/
def toSigned16 (v : Nat) : Int :=
  if v < 2 ^ 15 then (v : Int) else (v : Int) - 2 ^ 16

/-- `static_cast<size_t>` of a signed 32-bit value, as used by
`Reader::readSize<int32_t>`: a negative count becomes a huge unsigned one. -/
def szOfI32 (v : Nat) : Nat :=
  (toSigned32 v % (2 ^ 64 : Int)).toNat

/-- `static_cast<size_t>` of a signed 32-bit quantity already held as `Int`
(used for the texture width/height). -/
def szOfInt (v : Int) : Nat :=
  (v % (2 ^ 64 : Int)).toNat

/-- `reader.readInt<uint32_t>()` / the raw 32-bit word. -/
def rdU32 (c : Cursor) : Option (Nat × Cursor) :=
  match c.cur with
  | .u32 v :: r => some (v, { c with cur := r })
  | _ => none

/-- `reader.readInt<int32_t>()`. -/
def rdI32 (c : Cursor) : Option (Int × Cursor) :=
  match c.cur with
  | .u32 v :: r => some (toSigned32 v, { c with cur := r })
  | _ => none

/-- `reader.read<int16_t, int16_t>()`. -/
def rdI16 (c : Cursor) : Option (Int × Cursor) :=
  match c.cur with
  | .u16 v :: r => some (toSigned16 v, { c with cur := r })
  | _ => none

/-- `reader.readSize<int32_t>()`. -/
def rdSzI32 (c : Cursor) : Option (Nat × Cursor) :=
  match c.cur with
  | .u32 v :: r => some (szOfI32 v, { c with cur := r })
  | _ => none

/-- `reader.readSize<uint32_t>()` (zero-extending to `size_t`). -/
def rdSzU32 (c : Cursor) : Option (Nat × Cursor) :=
  match c.cur with
  | .u32 v :: r => some (v, { c with cur := r })
  | _ => none

/-- `reader.readFloat<float>()`. -/
def rdF32 (c : Cursor) : Option (Rat × Cursor) :=
  match c.cur with
  | .f32 v :: r => some (v, { c with cur := r })
  | _ => none

/-- `reader.readString(n)` (a fixed-length, null-padded name field). -/
def rdStr (c : Cursor) : Option (String × Cursor) :=
  match c.cur with
  | .str s :: r => some (s, { c with cur := r })
  | _ => none

/-- Reading `n` raw bytes out of the byte block at the current position,
failing (read exhaustion) when fewer than `n` bytes remain. -/
def rdBytes (n : Nat) (c : Cursor) : Option (List Nat × Cursor) :=
  match c.cur with
  | .bytes l :: r =>
    if n ≤ l.length then
      some (l.take n, { c with cur := if n < l.length then .bytes (l.drop n) :: r else r })
    else none
  | _ => none

/-- Lift a cursor read into `Except`, turning exhaustion into the given
truncation error (the `ReaderException` caught at the decoder boundary). -/
def liftE {ε α : Type} (tr : ε) : Option α → Except ε α
  | some a => .ok a
  | none => .error tr

/-! ## The unified model data produced by the loader -/

/-- Exact-rational stand-in for `vm::vec3f`. -/
structure Vec3 where
  x : Rat
  y : Rat
  z : Rat
deriving DecidableEq

/-- Exact-rational stand-in for `vm::vec2f`. -/
structure Vec2 where
  u : Rat
  v : Rat
deriving DecidableEq

/-- Componentwise vector addition (`pos + origin`). -/
def vadd (a b : Vec3) : Vec3 :=
  ⟨a.x + b.x, a.y + b.y, a.z + b.z⟩

/-- Scaling a vector by a scalar (`v * scale`). -/
def vscale (a : Vec3) (k : Rat) : Vec3 :=
  ⟨a.x * k, a.y * k, a.z * k⟩

/-- `BvmSeq`: one parsed animation sequence record. -/
structure BvmSeq where
  name : String
  frames : Nat
  framerate : Int
  scale : Rat
deriving DecidableEq

/-- `BvmTriangle`: three vertex indices. -/
structure BvmTriangle where
  v0 : Nat
  v1 : Nat
  v2 : Nat
deriving DecidableEq

/-- An output frame (`EntityModelData::addFrame`); only the name matters to the
properties verified here. -/
structure Frame where
  name : String
deriving DecidableEq

/-- An output surface (`EntityModelSurface`) together with the per-frame
geometry the loader feeds to the mesh assembler. -/
structure Surface where
  name : String
  skins : List String
  triangles : List BvmTriangle
  uvs : List Vec2
  perFramePos : List (List Vec3)
  perFrameNrm : List (List Vec3)
deriving DecidableEq

/-- `mdl::EntityModelData`, restricted to the decoded structure. -/
structure ModelData where
  surfaces : List Surface
  frames : List Frame
deriving DecidableEq

/-- Decoder errors, one constructor per distinct `Error{...}` return site of
`BvmLoader`, plus the truncation error wrapping `ReaderException`. -/
inductive LoadErr where
  | unknownIdent : Nat → LoadErr
  | unsupportedVersion : Int → LoadErr
  | badSubmeshIdent : Nat → LoadErr
  | badSkinIdent : Nat → LoadErr
  | truncated : LoadErr
deriving DecidableEq

/-- `BvmLayout::VTXMDL_IDENT` (`BIVM`). -/
def VTXMDL_IDENT : Nat := 77 * 2 ^ 24 + 86 * 2 ^ 16 + 73 * 2 ^ 8 + 66

/-- `BvmLayout::VTXMDL_SKIN_IDENT` (`SMSK`). -/
def VTXMDL_SKIN_IDENT : Nat := 75 * 2 ^ 24 + 83 * 2 ^ 16 + 77 * 2 ^ 8 + 83

/-- `BvmLayout::VTXMDL_SUBMESH_IDENT` (`SMSH`). -/
def VTXMDL_SUBMESH_IDENT : Nat := 72 * 2 ^ 24 + 83 * 2 ^ 16 + 77 * 2 ^ 8 + 83

/-- `BvmLayout::VTXMDL_CURRENTVERSION`. -/
def VTXMDL_CURRENTVERSION : Int := 3

/-- `fmt::format("{:03}", n)`: decimal, zero-padded to width three. -/
def pad3 (n : Nat) : String :=
  if n < 10 then "00" ++ toString n
  else if n < 100 then "0" ++ toString n
  else toString n

/-- Read `n` successive records with the same record reader, threading the
cursor (the shape of every counted `for` loop in the loader). -/
def readN {ε α : Type} (f : Cursor → Except ε (α × Cursor)) :
    Nat → Cursor → Except ε (List α × Cursor)
  | 0, c => .ok ([], c)
  | n + 1, c => do
    let (x, c₁) ← f c
    let (xs, c₂) ← readN f n c₁
    .ok (x :: xs, c₂)

/-- As `readN` but passing the loop counter to the record reader. -/
def readNIdx {ε α : Type} (f : Nat → Cursor → Except ε (α × Cursor)) :
    Nat → Nat → Cursor → Except ε (List α × Cursor)
  | _, 0, c => .ok ([], c)
  | i, n + 1, c => do
    let (x, c₁) ← f i c
    let (xs, c₂) ← readNIdx f (i + 1) n c₁
    .ok (x :: xs, c₂)

/-- `reader.readVec<float, 3>()`. -/
def mVec3 (c : Cursor) : Except LoadErr (Vec3 × Cursor) := do
  let (x, c) ← liftE .truncated (rdF32 c)
  let (y, c) ← liftE .truncated (rdF32 c)
  let (z, c) ← liftE .truncated (rdF32 c)
  .ok (⟨x, y, z⟩, c)

/-- `reader.readVec<float, 2>()`. -/
def mVec2 (c : Cursor) : Except LoadErr (Vec2 × Cursor) := do
  let (u, c) ← liftE .truncated (rdF32 c)
  let (v, c) ← liftE .truncated (rdF32 c)
  .ok (⟨u, v⟩, c)

/-- One sequence-table record, with the `scale <= 0` normalization applied at
read time exactly as in `loadV2`/`loadCurrent`. -/
def rdSeqRec (c : Cursor) : Except LoadErr (BvmSeq × Cursor) := do
  let (nm, c) ← liftE .truncated (rdStr c)
  let (fr, c) ← liftE .truncated (rdSzI32 c)
  let (rt, c) ← liftE .truncated (rdI32 c)
  let (sc, c) ← liftE .truncated (rdF32 c)
  .ok (⟨nm, fr, rt, if sc ≤ 0 then 1 else sc⟩, c)

/-- One embedded skin block: ident check, diffuse plus two unused names and an
unused float, yielding the synthesized `.btf` path. -/
def rdSkinRec (c : Cursor) : Except LoadErr (String × Cursor) := do
  let (skIdent, c) ← liftE .truncated (rdU32 c)
  if skIdent ≠ VTXMDL_SKIN_IDENT then
    .error (.badSkinIdent skIdent)
  else do
    let (df, c) ← liftE .truncated (rdStr c)
    let (_, c) ← liftE .truncated (rdStr c)
    let (_, c) ← liftE .truncated (rdStr c)
    let (_, c) ← liftE .truncated (rdF32 c)
    .ok ("textures/models/" ++ df ++ ".btf", c)

/-- One index triple as read by `loadV1`/`loadV2`: three `readSize<int32_t>`
in stored order. -/
def rdTriSeqRec (c : Cursor) : Except LoadErr (BvmTriangle × Cursor) := do
  let (a, c) ← liftE .truncated (rdSzI32 c)
  let (b, c) ← liftE .truncated (rdSzI32 c)
  let (d, c) ← liftE .truncated (rdSzI32 c)
  .ok (⟨a, b, d⟩, c)

/-- One index triple as read by `loadCurrent`: three `readSize<uint32_t>`,
stored into `vertices[0]`, `vertices[2]`, `vertices[1]` in that order, so the
stored triple `(a, b, c)` becomes the triangle `(a, c, b)`. -/
def rdTriCurRec (c : Cursor) : Except LoadErr (BvmTriangle × Cursor) := do
  let (a, c) ← liftE .truncated (rdSzU32 c)
  let (b, c) ← liftE .truncated (rdSzU32 c)
  let (d, c) ← liftE .truncated (rdSzU32 c)
  .ok (⟨a, d, b⟩, c)

/-- One position+normal+UV triple (`loadV1` and the `loadV2` base block): the
position is transformed right away by `(pos + origin) * m`. -/
def rdVertFull (origin : Vec3) (m : Rat) (c : Cursor) :
    Except LoadErr ((Vec3 × Vec3 × Vec2) × Cursor) := do
  let (p, c) ← mVec3 c
  let (n, c) ← mVec3 c
  let (uv, c) ← mVec2 c
  .ok ((vscale (vadd p origin) m, n, uv), c)

/-- One per-frame position+normal pair; the position is transformed by
`(pos + origin) * m`, the normal is stored untouched. -/
def rdVertPN (origin : Vec3) (m : Rat) (c : Cursor) :
    Except LoadErr ((Vec3 × Vec3) × Cursor) := do
  let (p, c) ← mVec3 c
  let (n, c) ← mVec3 c
  .ok ((vscale (vadd p origin) m, n), c)

/-- The nested per-sequence/per-frame/per-vertex read loop shared by `loadV2`
and `loadCurrent`; each frame block is transformed with the compound
multiplier `scale * seq.scale`. -/
def readFramesBlocks (origin : Vec3) (scale : Rat) (nv : Nat) :
    List BvmSeq → Cursor → Except LoadErr (List (List (Vec3 × Vec3)) × Cursor)
  | [], c => .ok ([], c)
  | s :: ss, c => do
    let (blocks, c₁) ← readN (readN (rdVertPN origin (scale * s.scale)) nv) s.frames c
    let (more, c₂) ← readFramesBlocks origin scale nv ss c₁
    .ok (blocks ++ more, c₂)

/-- The flat-frame names generated from the sequence table:
`"{name}_{frame:03}"`. -/
def flatFrameNames (seqs : List BvmSeq) : List String :=
  (seqs.map (fun s => (List.range s.frames).map (fun f => s.name ++ "_" ++ pad3 f))).flatten

/-- `BvmLoader::loadV1`, from the point just after ident and version. -/
def loadV1 (name : String) (c : Cursor) : Except LoadErr ModelData := do
  let (base, c) ← liftE .truncated (rdStr c)
  let (_, c) ← liftE .truncated (rdStr c)
  let (_, c) ← liftE .truncated (rdStr c)
  let (_, c) ← liftE .truncated (rdF32 c)
  let (origin, c) ← mVec3 c
  let (scale, c) ← liftE .truncated (rdF32 c)
  let (numVerts, c) ← liftE .truncated (rdSzI32 c)
  let (numIndices, c) ← liftE .truncated (rdSzI32 c)
  let (_, c) ← liftE .truncated (rdI32 c)
  let (_, c) ← liftE .truncated (rdSzI32 c)
  let (tris, c) ← readN rdTriSeqRec ((numIndices + 2) / 3) c
  let (vnu, _) ← readN (rdVertFull origin scale) numVerts c
  .ok
    { surfaces :=
        [{ name := name
           skins := ["textures/models/" ++ base ++ ".btf"]
           triangles := tris
           uvs := vnu.map (fun t => t.2.2)
           perFramePos := [vnu.map (fun t => t.1)]
           perFrameNrm := [vnu.map (fun t => t.2.1)] }]
      frames := [⟨"staticpose"⟩] }

/-- One `loadV2` submesh block, in strict stream order: ident check, names,
counts, embedded skins (diffuse first), index triples, base vertex block, then
one position+normal block per flat frame when sequences are present. -/
def rdSubmeshV2 (origin : Vec3) (scale : Rat) (numSequences : Nat)
    (seqs : List BvmSeq) (idx : Nat) (c : Cursor) : Except LoadErr (Surface × Cursor) := do
  let (smIdent, c) ← liftE .truncated (rdU32 c)
  if smIdent ≠ VTXMDL_SUBMESH_IDENT then
    .error (.badSubmeshIdent smIdent)
  else do
    let (diffuse, c) ← liftE .truncated (rdStr c)
    let (_, c) ← liftE .truncated (rdStr c)
    let (_, c) ← liftE .truncated (rdStr c)
    let (_, c) ← liftE .truncated (rdF32 c)
    let (numIndices, c) ← liftE .truncated (rdSzI32 c)
    let (numVerts, c) ← liftE .truncated (rdSzI32 c)
    let (numSkins, c) ← liftE .truncated (rdSzI32 c)
    let (skins, c) ← readN rdSkinRec numSkins c
    let (tris, c) ← readN rdTriSeqRec ((numIndices + 2) / 3) c
    let (base, c) ← readN (rdVertFull origin scale) numVerts c
    if numSequences = 0 then
      .ok
        ({ name := "submesh_" ++ toString idx
           skins := diffuse :: skins
           triangles := tris
           uvs := base.map (fun t => t.2.2)
           perFramePos := [base.map (fun t => t.1)]
           perFrameNrm := [base.map (fun t => t.2.1)] }, c)
    else do
      let (blocks, c) ← readFramesBlocks origin scale numVerts seqs c
      .ok
        ({ name := "submesh_" ++ toString idx
           skins := diffuse :: skins
           triangles := tris
           uvs := base.map (fun t => t.2.2)
           perFramePos := blocks.map (fun b => b.map (fun t => t.1))
           perFrameNrm := blocks.map (fun b => b.map (fun t => t.2)) }, c)

/-- The `loadV2` sequence table: when the sequence count is zero a single
implicit `staticpose` sequence (1 frame, rate 10, scale 1) is synthesized,
otherwise the declared records are read in stream order. -/
def readSeqTableV2 (numSequences : Nat) (c : Cursor) :
    Except LoadErr (List BvmSeq × Cursor) :=
  if numSequences = 0 then .ok ([⟨"staticpose", 1, 10, 1⟩], c)
  else readN rdSeqRec numSequences c

/-- `BvmLoader::loadV2`, from the point just after ident and version. -/
def loadV2 (c : Cursor) : Except LoadErr ModelData := do
  let (origin, c) ← mVec3 c
  let (scale, c) ← liftE .truncated (rdF32 c)
  let (numSubmeshes, c) ← liftE .truncated (rdSzI32 c)
  let (numSequences, c) ← liftE .truncated (rdSzI32 c)
  let (_, c) ← liftE .truncated (rdI32 c)
  let (seqs, c) ← readSeqTableV2 numSequences c
  let flatNames := if numSequences = 0 then ["staticpose"] else flatFrameNames seqs
  let (surfs, _) ← readNIdx (rdSubmeshV2 origin scale numSequences seqs) 0 numSubmeshes c
  .ok { surfaces := surfs, frames := flatNames.map Frame.mk }

/-- A `loadCurrent` submesh descriptor: counts and section offsets only. -/
structure SubmeshDesc where
  name : String
  numSkins : Nat
  skinOff : Nat
  numVerts : Nat
  uvOff : Nat
  numIndices : Nat
  idxOff : Nat
  seqOff : Nat
deriving DecidableEq

/-- One descriptor-table record of `loadCurrent`. -/
def rdSubmeshDesc (idx : Nat) (c : Cursor) : Except LoadErr (SubmeshDesc × Cursor) := do
  let (smIdent, c) ← liftE .truncated (rdU32 c)
  if smIdent ≠ VTXMDL_SUBMESH_IDENT then
    .error (.badSubmeshIdent smIdent)
  else do
    let (nSk, c) ← liftE .truncated (rdSzI32 c)
    let (skO, c) ← liftE .truncated (rdSzI32 c)
    let (nV, c) ← liftE .truncated (rdSzI32 c)
    let (uvO, c) ← liftE .truncated (rdSzI32 c)
    let (nI, c) ← liftE .truncated (rdSzI32 c)
    let (iO, c) ← liftE .truncated (rdSzI32 c)
    let (sqO, c) ← liftE .truncated (rdSzI32 c)
    .ok (⟨"submesh_" ++ toString idx, nSk, skO, nV, uvO, nI, iO, sqO⟩, c)

/-- The `loadCurrent` skin chain: sought to and read only when
`num_skins > 0`; there is no implicit diffuse skin in this revision. -/
def readSkinChainCur (numSkins skinOff : Nat) (c : Cursor) :
    Except LoadErr (List String × Cursor) :=
  if 0 < numSkins then readN rdSkinRec numSkins (seekTo skinOff c)
  else .ok ([], c)

/-- The `loadCurrent` second pass over one descriptor: seek to and read the
skin chain, the static UVs, the swapped index triples, and one
position+normal block per flat frame. -/
def procSubmeshCur (origin : Vec3) (scale : Rat) (seqs : List BvmSeq)
    (d : SubmeshDesc) (c : Cursor) : Except LoadErr (Surface × Cursor) := do
  let (skins, c) ← readSkinChainCur d.numSkins d.skinOff c
  let (uvs, c) ← readN mVec2 d.numVerts (seekTo d.uvOff c)
  let (tris, c) ← readN rdTriCurRec ((d.numIndices + 2) / 3) (seekTo d.idxOff c)
  let (blocks, c) ← readFramesBlocks origin scale d.numVerts seqs (seekTo d.seqOff c)
  .ok
    ({ name := d.name
       skins := skins
       triangles := tris
       uvs := uvs
       perFramePos := blocks.map (fun b => b.map (fun t => t.1))
       perFrameNrm := blocks.map (fun b => b.map (fun t => t.2)) }, c)

/-- The `loadCurrent` second pass over all descriptors. -/
def procSubmeshesCur (origin : Vec3) (scale : Rat) (seqs : List BvmSeq) :
    List SubmeshDesc → Cursor → Except LoadErr (List Surface × Cursor)
  | [], c => .ok ([], c)
  | d :: ds, c => do
    let (s, c₁) ← procSubmeshCur origin scale seqs d c
    let (rest, c₂) ← procSubmeshesCur origin scale seqs ds c₁
    .ok (s :: rest, c₂)

/-- `BvmLoader::loadCurrent` (version 3, offset-table layout), from the point
just after ident and version. -/
def loadCurrent (c : Cursor) : Except LoadErr ModelData := do
  let (origin, c) ← mVec3 c
  let (scale, c) ← liftE .truncated (rdF32 c)
  let (_, c) ← liftE .truncated (rdI32 c)
  let (_, c) ← mVec3 c
  let (_, c) ← mVec3 c
  let (seqCount, c) ← liftE .truncated (rdSzI32 c)
  let (seqOff, c) ← liftE .truncated (rdSzI32 c)
  let (smCount, c) ← liftE .truncated (rdSzI32 c)
  let (smOff, c) ← liftE .truncated (rdSzI32 c)
  let (_, c) ← liftE .truncated (rdSzI32 c)
  let (_, c) ← liftE .truncated (rdSzI32 c)
  let (seqs, c) ← readN rdSeqRec seqCount (seekTo seqOff c)
  let (descs, c) ← readNIdx rdSubmeshDesc 0 smCount (seekTo smOff c)
  let (surfs, _) ← procSubmeshesCur origin scale seqs descs c
  .ok { surfaces := surfs, frames := (flatFrameNames seqs).map Frame.mk }

/-- `BvmLoader::load`: ident and version checks, then revision dispatch. -/
def load (name : String) (c : Cursor) : Except LoadErr ModelData := do
  let (identRaw, c) ← liftE .truncated (rdU32 c)
  let (version, c) ← liftE .truncated (rdI32 c)
  if identRaw ≠ VTXMDL_IDENT then
    .error (.unknownIdent identRaw)
  else if version > VTXMDL_CURRENTVERSION then
    .error (.unsupportedVersion version)
  else if version = 1 then
    loadV1 name c
  else if version = 2 then
    loadV2 c
  else
    loadCurrent c

/-- `kdl::path_has_extension(kdl::path_to_lower(path), ".bvm")`, with the path
represented by its extension component. -/
def extMatchesBvm (ext : String) : Bool :=
  ext.toLower == ".bvm"

/-- `BvmLoader::canParse`.  The reader is taken by value in the source, so the
function is pure in the caller's cursor; `none` models the uncaught
`ReaderException` on a source shorter than eight bytes. -/
def canParse (ext : String) (c : Cursor) : Option Bool :=
  if ¬ extMatchesBvm ext then some false
  else
    match rdU32 c with
    | none => none
    | some (identRaw, c₁) =>
      match rdI32 c₁ with
      | none => none
      | some (version, _) =>
        some (identRaw = VTXMDL_IDENT ∧ version ≤ VTXMDL_CURRENTVERSION : Bool)

/-- The C++ call `canParse(path, reader)` with its by-value reader argument:
the caller's cursor is returned unchanged. -/
def canParseCall (ext : String) (c : Cursor) : Option Bool × Cursor :=
  (canParse ext c, c)

/-! ## Verification-side notions and explicit example inputs -/

/-- `x` never fails with an error satisfying `p`. -/
def NoErr {ε α : Type} (p : ε → Prop) (x : Except ε α) : Prop :=
  ∀ e, x = .error e → ¬ p e

/-- Every successful outcome of `x` satisfies `P`. -/
def OkImp {ε α : Type} (P : α → Prop) (x : Except ε α) : Prop :=
  ∀ a, x = .ok a → P a

/-- An error is a dispatch-level one: an unknown model ident or an
unsupported version. -/
def DispErr : LoadErr → Prop
  | .unknownIdent _ => True
  | .unsupportedVersion _ => True
  | _ => False

/-- Token encoding of a list of stored index triples (one 32-bit word per
index, in stored order). -/
def encTriToks (l : List (Nat × Nat × Nat)) : List Tok :=
  (l.map (fun t => [Tok.u32 t.1, Tok.u32 t.2.1, Tok.u32 t.2.2])).flatten

/-- Token encoding of one per-frame vertex block: for every vertex, the three
raw position floats followed by the three raw normal floats. -/
def encVertPN (l : List (Vec3 × Vec3)) : List Tok :=
  (l.map (fun pn =>
    [Tok.f32 pn.1.x, Tok.f32 pn.1.y, Tok.f32 pn.1.z,
     Tok.f32 pn.2.x, Tok.f32 pn.2.y, Tok.f32 pn.2.z])).flatten

/-- Token encoding of the per-frame blocks of one sequence. -/
def encFrames (fl : List (List (Vec3 × Vec3))) : List Tok :=
  (fl.map encVertPN).flatten

/-- Token encoding of a whole animation-data section: the per-frame blocks of
every sequence in order. -/
def encSeqData (dat : List (List (List (Vec3 × Vec3)))) : List Tok :=
  (dat.map encFrames).flatten

/-- An explicit version-3 input whose sequence-count field is zero (and with no
submeshes): ident, version 3, origin, scale, flags, two bounding vectors, then
the (count, offset) table with `sequence_count = 0`. -/
def v3ZeroSeqInput : Cursor :=
  ⟨fun _ => [],
   [.u32 VTXMDL_IDENT, .u32 3, .f32 0, .f32 0, .f32 0, .f32 1, .u32 0,
    .f32 0, .f32 0, .f32 0, .f32 0, .f32 0, .f32 0,
    .u32 0, .u32 64, .u32 0, .u32 64, .u32 0, .u32 0]⟩

/-- An explicit version-3 input with one submesh whose skin count is zero (its
descriptor table lives at offset 9). -/
def v3ZeroSkinInput : Cursor :=
  ⟨fun o =>
    if o = 9 then
      [.u32 VTXMDL_SUBMESH_IDENT, .u32 0, .u32 0, .u32 0, .u32 0, .u32 0, .u32 0, .u32 0]
    else [],
   [.u32 VTXMDL_IDENT, .u32 3, .f32 0, .f32 0, .f32 0, .f32 1, .u32 0,
    .f32 0, .f32 0, .f32 0, .f32 0, .f32 0, .f32 0,
    .u32 0, .u32 64, .u32 1, .u32 9, .u32 0, .u32 0]⟩

end BvmSpec

namespace BtfSpec

open BvmSpec

/-! ## The BTF texture reader (`ReadBtfTexture.cpp`)

The pixel buffer is a byte array indexed by `row * rowBytes + column`; we model
it two-dimensionally as a function from row and column to byte value, which is
exactly the addressing scheme `data + y * rowBytes + i` of the flip loop. -/

/-- The inner `for (i < rowBytes) std::swap(rowTop[i], rowBot[i])` loop: its
net effect on the buffer, as a function of row and column. -/
def swapRows (rowBytes a b : Nat) (f : Nat → Nat → Nat) : Nat → Nat → Nat :=
  fun r i =>
    if i < rowBytes then
      if r = a then f b i else if r = b then f a i else f r i
    else f r i

/-- The outer flip loop, iterating `y` from `h / 2 - k` up to `h / 2 - 1` and
swapping row `y` with row `h - 1 - y`. -/
def flipIter (rowBytes h : Nat) : Nat → (Nat → Nat → Nat) → (Nat → Nat → Nat)
  | 0, f => f
  | k + 1, f =>
    flipIter rowBytes h k (swapRows rowBytes (h / 2 - (k + 1)) (h - 1 - (h / 2 - (k + 1))) f)

/-- The vertical-flip post-process of `readBtfTexture`: the full loop
`for (y = 0; y < h / 2; ++y) swap rows y and h - 1 - y`. -/
def flipVert (rowBytes h : Nat) (f : Nat → Nat → Nat) : Nat → Nat → Nat :=
  flipIter rowBytes h (h / 2) f

/-- The flip applied to the flat byte list of the decoded mip level
(`rowBytes = width * 4`). -/
def flipBytes (rowBytes h : Nat) (l : List Nat) : List Nat :=
  (List.range l.length).map
    (fun idx => flipVert rowBytes h (fun r i => (l.drop (r * rowBytes + i)).headD 0)
      (idx / rowBytes) (idx % rowBytes))

/-- `Btf::BTF_IDENT` (`BITF`). -/
def BTF_IDENT : Nat := 70 * 2 ^ 24 + 84 * 2 ^ 16 + 73 * 2 ^ 8 + 66

/-- `Btf::BTF_FRAMEID` (`FRAM`). -/
def BTF_FRAMEID : Nat := 77 * 2 ^ 24 + 65 * 2 ^ 16 + 82 * 2 ^ 8 + 70

/-- `Btf::BTF_METAQ2` (`QMTA`). -/
def BTF_METAQ2 : Nat := 65 * 2 ^ 24 + 84 * 2 ^ 16 + 77 * 2 ^ 8 + 81

/-- `Btf::BTF_METASPR` (`SPMT`). -/
def BTF_METASPR : Nat := 83 * 2 ^ 24 + 77 * 2 ^ 16 + 80 * 2 ^ 8 + 84

/-- `Btf::Version(major, minor)`: `(uint32)(major * 100 + minor * 10)`. -/
def btfVersionOf (major minor : Int) : Nat :=
  ((major * 100 + minor * 10) % (2 ^ 32 : Int)).toNat

/-- `Btf::HighestVersion()`. -/
def btfHighestVersion : Nat := btfVersionOf 1 0

/-- Texture-reader errors, one constructor per `Error{...}` return site plus
the truncation error wrapping the caught exception. -/
inductive BtfErr where
  | unknownIdent : Nat → BtfErr
  | unsupportedVersion : Int → Int → BtfErr
  | missingFrames : Int → BtfErr
  | noFrameData : BtfErr
  | badFrameIdent : Nat → BtfErr
  | truncated : BtfErr
deriving DecidableEq

/-- The `mdl::Texture` fields populated by `readBtfTexture`. -/
structure BtfTexture where
  width : Nat
  height : Nat
  flags : Int
  contents : Int
  lightvalue : Int
  buffer : List Nat
deriving DecidableEq

/-- `static_cast<int32_t>(float)`: truncation toward zero. -/
def truncToInt (q : Rat) : Int :=
  if 0 ≤ q then ⌊q⌋ else ⌈q⌉

/-- The optional metadata block: seek, read the type tag, and extract the
game-specific fields when the tag is recognized (the `metadata_q2_t` fields
default to zero otherwise, as the value-initialized struct does). -/
def btfReadMeta (metaSize metaOff : Nat) (c : Cursor) :
    Except BtfErr ((Int × Int × Rat) × Cursor) :=
  if 0 < metaSize then do
    let c := seekTo metaOff c
    let (mt, c) ← liftE .truncated (rdU32 c)
    if mt = BTF_METAQ2 then do
      let (sf, c) ← liftE .truncated (rdI32 c)
      let (ct, c) ← liftE .truncated (rdI32 c)
      let (v, c) ← liftE .truncated (rdF32 c)
      .ok ((sf, ct, v), c)
    else if mt = BTF_METASPR then do
      let (_, c) ← liftE .truncated (rdI32 c)
      let (_, c) ← liftE .truncated (rdI32 c)
      .ok ((0, 0, 0), c)
    else .ok ((0, 0, 0), c)
  else .ok ((0, 0, 0), c)

/-- The frame block after a valid frame ident: the SHA-1 field, the 40
reserved bytes, then exactly `width * height * 4` raw pixel bytes, optionally
flipped. -/
def btfPixels (bVerticalFlip : Bool) (width height : Int) (sf ct : Int) (lv : Rat)
    (c : Cursor) : Except BtfErr BtfTexture := do
  let (_, c) ← liftE .truncated (rdStr c)
  let (_, c) ← liftE .truncated (rdBytes 40 c)
  let w := szOfInt width
  let h := szOfInt height
  let (buf, _) ← liftE .truncated (rdBytes (w * h * 4) c)
  .ok
    { width := w
      height := h
      flags := sf
      contents := ct
      lightvalue := truncToInt lv
      buffer := if bVerticalFlip then flipBytes (w * 4) h buf else buf }

/-- The tail of `readBtfTexture` after the texinfo validation: metadata block,
seek to the frame data, frame ident check, then the pixel block. -/
def btfTail (bVerticalFlip : Bool) (width height : Int) (frameDataOff : Nat)
    (metaSize metaOff : Nat) (c : Cursor) : Except BtfErr BtfTexture := do
  let ((sf, ct, lv), c) ← btfReadMeta metaSize metaOff c
  let c := seekTo frameDataOff c
  let (fid, c) ← liftE .truncated (rdU32 c)
  if fid ≠ BTF_FRAMEID then
    .error (.badFrameIdent fid)
  else btfPixels bVerticalFlip width height sf ct lv c

/-- The part of `readBtfTexture` following the frame-count validation: the
frame-data size/offset and metadata size/offset fields, the `no framedata`
check, then `btfTail`. -/
def btfAfterCounts (bVerticalFlip : Bool) (width height : Int) (c : Cursor) :
    Except BtfErr BtfTexture := do
  let (frameDataSize, c) ← liftE .truncated (rdSzI32 c)
  let (frameDataOff, c) ← liftE .truncated (rdSzI32 c)
  let (metaSize, c) ← liftE .truncated (rdSzI32 c)
  let (metaOff, c) ← liftE .truncated (rdSzI32 c)
  if frameDataSize = 0 then
    .error .noFrameData
  else btfTail bVerticalFlip width height frameDataOff metaSize metaOff c

/-- The texinfo block of `readBtfTexture`: width, height, the compression,
format and animation kinds (read but never inspected by the source), and the
frame count with its validation. -/
def btfTexinfo (bVerticalFlip : Bool) (c : Cursor) : Except BtfErr BtfTexture := do
  let (width, c) ← liftE .truncated (rdI32 c)
  let (height, c) ← liftE .truncated (rdI32 c)
  let (_, c) ← liftE .truncated (rdI16 c)
  let (_, c) ← liftE .truncated (rdI16 c)
  let (_, c) ← liftE .truncated (rdI16 c)
  let (frameCount, c) ← liftE .truncated (rdI16 c)
  if frameCount ≤ 0 then
    .error (.missingFrames frameCount)
  else btfAfterCounts bVerticalFlip width height c

/-- The version fields of `readBtfTexture` with their validation. -/
def btfVers (bVerticalFlip : Bool) (c : Cursor) : Except BtfErr BtfTexture := do
  let (verMajor, c) ← liftE .truncated (rdI16 c)
  let (verMinor, c) ← liftE .truncated (rdI16 c)
  if btfVersionOf verMajor verMinor > btfHighestVersion then
    .error (.unsupportedVersion verMajor verMinor)
  else btfTexinfo bVerticalFlip c

/-- `readBtfTexture`: ident check, version check, texinfo block, then the
frame-data extraction. -/
def readBtfTexture (c : Cursor) (bVerticalFlip : Bool) : Except BtfErr BtfTexture := do
  let (identRaw, c) ← liftE .truncated (rdU32 c)
  if identRaw ≠ BTF_IDENT then
    .error (.unknownIdent identRaw)
  else btfVers bVerticalFlip c

/-- The `MissingFrames` error class. -/
def MissErr : BtfErr → Prop
  | .missingFrames _ => True
  | _ => False

/-- An explicit texture input whose compression-kind field is 1 (`DXT1`), with
every other field well formed: version 1.0, 1×1 pixels, RGBA format, one
frame, frame data at offset 50, no metadata. -/
def btfCompressedInput : Cursor :=
  ⟨fun o =>
    if o = 50 then [.u32 BTF_FRAMEID, .str "sha", .bytes (List.replicate 40 0 ++ [1, 2, 3, 4])]
    else [],
   [.u32 BTF_IDENT, .u16 1, .u16 0, .u32 1, .u32 1, .u16 1, .u16 0, .u16 0, .u16 1,
    .u32 4, .u32 50, .u32 0, .u32 0]⟩

/-- The same explicit texture input but with frame count 0. -/
def btfZeroFramesInput : Cursor :=
  ⟨fun o =>
    if o = 50 then [.u32 BTF_FRAMEID, .str "sha", .bytes (List.replicate 40 0 ++ [1, 2, 3, 4])]
    else [],
   [.u32 BTF_IDENT, .u16 1, .u16 0, .u32 1, .u32 1, .u16 0, .u16 0, .u16 0, .u16 0,
    .u32 4, .u32 50, .u32 0, .u32 0]⟩

end BtfSpec

namespace BvmSpec

/-! ## Generic reasoning principles for the embedded readers -/

theorem bindE_ok {ε α β : Type} {x : Except ε α} {f : α → Except ε β} {b : β} :
    x >>= f = .ok b ↔ ∃ a, x = .ok a ∧ f a = .ok b := by
  cases x <;> simp [Bind.bind, Except.bind]

theorem bindE_error {ε α β : Type} {x : Except ε α} {f : α → Except ε β} {e : ε} :
    x >>= f = .error e ↔ x = .error e ∨ ∃ a, x = .ok a ∧ f a = .error e := by
  cases x <;> simp [Bind.bind, Except.bind]

theorem noErr_ok {ε α : Type} {p : ε → Prop} {a : α} : NoErr p (.ok a : Except ε α) := by
  intro e he
  cases he

theorem noErr_error {ε α : Type} {p : ε → Prop} {e : ε} (h : ¬ p e) :
    NoErr p (.error e : Except ε α) := by
  intro e' he'
  cases he'
  exact h

theorem noErr_bind {ε α β : Type} {p : ε → Prop} {x : Except ε α} {f : α → Except ε β}
    (hx : NoErr p x) (hf : ∀ a, NoErr p (f a)) : NoErr p (x >>= f) := by
  intro e he
  rcases bindE_error.mp he with he | ⟨a, _, hfa⟩
  · exact hx e he
  · exact hf a e hfa

theorem noErr_liftE {ε α : Type} {p : ε → Prop} {tr : ε} {o : Option α} (h : ¬ p tr) :
    NoErr p (liftE tr o) := by
  cases o
  · exact noErr_error h
  · exact noErr_ok

theorem noErr_readN {ε α : Type} {p : ε → Prop} {f : Cursor → Except ε (α × Cursor)}
    (hf : ∀ c, NoErr p (f c)) : ∀ n c, NoErr p (readN f n c) := by
  intro n
  induction n with
  | zero => intro c; exact noErr_ok
  | succ n ih =>
    intro c
    apply noErr_bind (hf c)
    rintro ⟨x, c₁⟩
    apply noErr_bind (ih c₁)
    rintro ⟨xs, c₂⟩
    exact noErr_ok

theorem noErr_readNIdx {ε α : Type} {p : ε → Prop} {f : Nat → Cursor → Except ε (α × Cursor)}
    (hf : ∀ i c, NoErr p (f i c)) : ∀ i n c, NoErr p (readNIdx f i n c) := by
  intro i n
  induction n generalizing i with
  | zero => intro c; exact noErr_ok
  | succ n ih =>
    intro c
    apply noErr_bind (hf i c)
    rintro ⟨x, c₁⟩
    apply noErr_bind (ih (i + 1) c₁)
    rintro ⟨xs, c₂⟩
    exact noErr_ok

/-! Reduction lemmas for the primitive reads on a cursor whose current token
list is explicit. -/

@[simp] theorem seekTo_mk (o : Nat) (s : Nat → List Tok) (l : List Tok) :
    seekTo o ⟨s, l⟩ = ⟨s, s o⟩ := rfl

@[simp] theorem rdU32_cons (s : Nat → List Tok) (v : Nat) (r : List Tok) :
    rdU32 ⟨s, .u32 v :: r⟩ = some (v, ⟨s, r⟩) := rfl

@[simp] theorem rdI32_cons (s : Nat → List Tok) (v : Nat) (r : List Tok) :
    rdI32 ⟨s, .u32 v :: r⟩ = some (toSigned32 v, ⟨s, r⟩) := rfl

@[simp] theorem rdI16_cons (s : Nat → List Tok) (v : Nat) (r : List Tok) :
    rdI16 ⟨s, .u16 v :: r⟩ = some (toSigned16 v, ⟨s, r⟩) := rfl

@[simp] theorem rdSzI32_cons (s : Nat → List Tok) (v : Nat) (r : List Tok) :
    rdSzI32 ⟨s, .u32 v :: r⟩ = some (szOfI32 v, ⟨s, r⟩) := rfl

@[simp] theorem rdSzU32_cons (s : Nat → List Tok) (v : Nat) (r : List Tok) :
    rdSzU32 ⟨s, .u32 v :: r⟩ = some (v, ⟨s, r⟩) := rfl

@[simp] theorem rdF32_cons (s : Nat → List Tok) (v : Rat) (r : List Tok) :
    rdF32 ⟨s, .f32 v :: r⟩ = some (v, ⟨s, r⟩) := rfl

@[simp] theorem rdStr_cons (s : Nat → List Tok) (t : String) (r : List Tok) :
    rdStr ⟨s, .str t :: r⟩ = some (t, ⟨s, r⟩) := rfl

@[simp] theorem liftE_some {ε α : Type} (tr : ε) (a : α) :
    liftE tr (some a) = .ok a := rfl

@[simp] theorem liftE_none {ε α : Type} (tr : ε) :
    liftE tr (none : Option α) = .error tr := rfl

@[simp] theorem szOfI32_small (v : Nat) (h : v < 2 ^ 31) : szOfI32 v = v := by
  simp [szOfI32, toSigned32, h]
  omega

/-! ## The revision decoders never raise the dispatch-level errors

`UnknownIdent` and `UnsupportedVersion` are raised only by `BvmLoader::load`
itself; the three strategies raise only submesh/skin ident errors and the
truncation error. -/

theorem noDisp_truncated : ¬ DispErr .truncated := by simp [DispErr]

theorem noDisp_lift {α : Type} (o : Option α) :
    NoErr DispErr (liftE .truncated o) := noErr_liftE noDisp_truncated

theorem noDisp_mVec3 (c : Cursor) : NoErr DispErr (mVec3 c) := by
  unfold mVec3
  apply noErr_bind (noDisp_lift _); rintro ⟨x, c⟩
  apply noErr_bind (noDisp_lift _); rintro ⟨y, c⟩
  apply noErr_bind (noDisp_lift _); rintro ⟨z, c⟩
  exact noErr_ok

theorem noDisp_mVec2 (c : Cursor) : NoErr DispErr (mVec2 c) := by
  unfold mVec2
  apply noErr_bind (noDisp_lift _); rintro ⟨u, c⟩
  apply noErr_bind (noDisp_lift _); rintro ⟨v, c⟩
  exact noErr_ok

theorem noDisp_rdSeqRec (c : Cursor) : NoErr DispErr (rdSeqRec c) := by
  unfold rdSeqRec
  apply noErr_bind (noDisp_lift _); rintro ⟨nm, c⟩
  apply noErr_bind (noDisp_lift _); rintro ⟨fr, c⟩
  apply noErr_bind (noDisp_lift _); rintro ⟨rt, c⟩
  apply noErr_bind (noDisp_lift _); rintro ⟨sc, c⟩
  exact noErr_ok

theorem noDisp_rdSkinRec (c : Cursor) : NoErr DispErr (rdSkinRec c) := by
  unfold rdSkinRec
  apply noErr_bind (noDisp_lift _); rintro ⟨skIdent, c⟩
  dsimp only
  split
  · exact noErr_error (by simp [DispErr])
  · apply noErr_bind (noDisp_lift _); rintro ⟨df, c⟩
    apply noErr_bind (noDisp_lift _); rintro ⟨_, c⟩
    apply noErr_bind (noDisp_lift _); rintro ⟨_, c⟩
    apply noErr_bind (noDisp_lift _); rintro ⟨_, c⟩
    exact noErr_ok

theorem noDisp_rdTriSeqRec (c : Cursor) : NoErr DispErr (rdTriSeqRec c) := by
  unfold rdTriSeqRec
  apply noErr_bind (noDisp_lift _); rintro ⟨a, c⟩
  apply noErr_bind (noDisp_lift _); rintro ⟨b, c⟩
  apply noErr_bind (noDisp_lift _); rintro ⟨d, c⟩
  exact noErr_ok

theorem noDisp_rdTriCurRec (c : Cursor) : NoErr DispErr (rdTriCurRec c) := by
  unfold rdTriCurRec
  apply noErr_bind (noDisp_lift _); rintro ⟨a, c⟩
  apply noErr_bind (noDisp_lift _); rintro ⟨b, c⟩
  apply noErr_bind (noDisp_lift _); rintro ⟨d, c⟩
  exact noErr_ok

theorem noDisp_rdVertFull (origin : Vec3) (m : Rat) (c : Cursor) :
    NoErr DispErr (rdVertFull origin m c) := by
  unfold rdVertFull
  apply noErr_bind (noDisp_mVec3 c); rintro ⟨p, c⟩
  apply noErr_bind (noDisp_mVec3 c); rintro ⟨n, c⟩
  apply noErr_bind (noDisp_mVec2 c); rintro ⟨uv, c⟩
  exact noErr_ok

theorem noDisp_rdVertPN (origin : Vec3) (m : Rat) (c : Cursor) :
    NoErr DispErr (rdVertPN origin m c) := by
  unfold rdVertPN
  apply noErr_bind (noDisp_mVec3 c); rintro ⟨p, c⟩
  apply noErr_bind (noDisp_mVec3 c); rintro ⟨n, c⟩
  exact noErr_ok

theorem noDisp_readFramesBlocks (origin : Vec3) (scale : Rat) (nv : Nat) :
    ∀ (seqs : List BvmSeq) (c : Cursor), NoErr DispErr (readFramesBlocks origin scale nv seqs c) := by
  intro seqs
  induction seqs with
  | nil => intro c; exact noErr_ok
  | cons s ss ih =>
    intro c
    apply noErr_bind (noErr_readN (noErr_readN (noDisp_rdVertPN origin (scale * s.scale)) nv) _ c)
    rintro ⟨blocks, c₁⟩
    apply noErr_bind (ih c₁)
    rintro ⟨more, c₂⟩
    exact noErr_ok

theorem noDisp_loadV1 (name : String) (c : Cursor) : NoErr DispErr (loadV1 name c) := by
  unfold loadV1
  apply noErr_bind (noDisp_lift _); rintro ⟨base, c⟩
  apply noErr_bind (noDisp_lift _); rintro ⟨_, c⟩
  apply noErr_bind (noDisp_lift _); rintro ⟨_, c⟩
  apply noErr_bind (noDisp_lift _); rintro ⟨_, c⟩
  apply noErr_bind (noDisp_mVec3 c); rintro ⟨origin, c⟩
  apply noErr_bind (noDisp_lift _); rintro ⟨scale, c⟩
  apply noErr_bind (noDisp_lift _); rintro ⟨numVerts, c⟩
  apply noErr_bind (noDisp_lift _); rintro ⟨numIndices, c⟩
  apply noErr_bind (noDisp_lift _); rintro ⟨_, c⟩
  apply noErr_bind (noDisp_lift _); rintro ⟨_, c⟩
  apply noErr_bind (noErr_readN noDisp_rdTriSeqRec _ c); rintro ⟨tris, c⟩
  apply noErr_bind (noErr_readN (noDisp_rdVertFull origin scale) _ c); rintro ⟨vnu, c⟩
  exact noErr_ok

theorem noDisp_rdSubmeshV2 (origin : Vec3) (scale : Rat) (numSequences : Nat)
    (seqs : List BvmSeq) (idx : Nat) (c : Cursor) :
    NoErr DispErr (rdSubmeshV2 origin scale numSequences seqs idx c) := by
  unfold rdSubmeshV2
  apply noErr_bind (noDisp_lift _); rintro ⟨smIdent, c⟩
  dsimp only
  split
  · exact noErr_error (by simp [DispErr])
  · apply noErr_bind (noDisp_lift _); rintro ⟨diffuse, c⟩
    apply noErr_bind (noDisp_lift _); rintro ⟨_, c⟩
    apply noErr_bind (noDisp_lift _); rintro ⟨_, c⟩
    apply noErr_bind (noDisp_lift _); rintro ⟨_, c⟩
    apply noErr_bind (noDisp_lift _); rintro ⟨numIndices, c⟩
    apply noErr_bind (noDisp_lift _); rintro ⟨numVerts, c⟩
    apply noErr_bind (noDisp_lift _); rintro ⟨numSkins, c⟩
    apply noErr_bind (noErr_readN noDisp_rdSkinRec _ c); rintro ⟨skins, c⟩
    apply noErr_bind (noErr_readN noDisp_rdTriSeqRec _ c); rintro ⟨tris, c⟩
    apply noErr_bind (noErr_readN (noDisp_rdVertFull origin scale) _ c); rintro ⟨base, c⟩
    split
    · exact noErr_ok
    · apply noErr_bind (noDisp_readFramesBlocks origin scale numVerts seqs c)
      rintro ⟨blocks, c⟩
      exact noErr_ok

theorem noDisp_loadV2 (c : Cursor) : NoErr DispErr (loadV2 c) := by
  unfold loadV2
  apply noErr_bind (noDisp_mVec3 c); rintro ⟨origin, c⟩
  apply noErr_bind (noDisp_lift _); rintro ⟨scale, c⟩
  apply noErr_bind (noDisp_lift _); rintro ⟨numSubmeshes, c⟩
  apply noErr_bind (noDisp_lift _); rintro ⟨numSequences, c⟩
  apply noErr_bind (noDisp_lift _); rintro ⟨_, c⟩
  apply noErr_bind ?_ ?_
  · unfold readSeqTableV2
    split
    · exact noErr_ok
    · exact noErr_readN noDisp_rdSeqRec _ c
  · rintro ⟨seqs, c⟩
    apply noErr_bind (noErr_readNIdx (noDisp_rdSubmeshV2 origin scale numSequences seqs) 0 _ c)
    rintro ⟨surfs, c⟩
    exact noErr_ok

theorem noDisp_rdSubmeshDesc (idx : Nat) (c : Cursor) :
    NoErr DispErr (rdSubmeshDesc idx c) := by
  unfold rdSubmeshDesc
  apply noErr_bind (noDisp_lift _); rintro ⟨smIdent, c⟩
  dsimp only
  split
  · exact noErr_error (by simp [DispErr])
  · apply noErr_bind (noDisp_lift _); rintro ⟨_, c⟩
    apply noErr_bind (noDisp_lift _); rintro ⟨_, c⟩
    apply noErr_bind (noDisp_lift _); rintro ⟨_, c⟩
    apply noErr_bind (noDisp_lift _); rintro ⟨_, c⟩
    apply noErr_bind (noDisp_lift _); rintro ⟨_, c⟩
    apply noErr_bind (noDisp_lift _); rintro ⟨_, c⟩
    apply noErr_bind (noDisp_lift _); rintro ⟨_, c⟩
    exact noErr_ok

theorem noDisp_procSubmeshCur (origin : Vec3) (scale : Rat) (seqs : List BvmSeq)
    (d : SubmeshDesc) (c : Cursor) : NoErr DispErr (procSubmeshCur origin scale seqs d c) := by
  unfold procSubmeshCur
  apply noErr_bind ?_ ?_
  · unfold readSkinChainCur
    split
    · exact noErr_readN noDisp_rdSkinRec _ _
    · exact noErr_ok
  · rintro ⟨skins, c⟩
    apply noErr_bind (noErr_readN noDisp_mVec2 _ _); rintro ⟨uvs, c⟩
    apply noErr_bind (noErr_readN noDisp_rdTriCurRec _ _); rintro ⟨tris, c⟩
    apply noErr_bind (noDisp_readFramesBlocks origin scale d.numVerts seqs _)
    rintro ⟨blocks, c⟩
    exact noErr_ok

theorem noDisp_procSubmeshesCur (origin : Vec3) (scale : Rat) (seqs : List BvmSeq) :
    ∀ (ds : List SubmeshDesc) (c : Cursor), NoErr DispErr (procSubmeshesCur origin scale seqs ds c) := by
  intro ds
  induction ds with
  | nil => intro c; exact noErr_ok
  | cons d ds ih =>
    intro c
    apply noErr_bind (noDisp_procSubmeshCur origin scale seqs d c)
    rintro ⟨s, c₁⟩
    apply noErr_bind (ih c₁)
    rintro ⟨rest, c₂⟩
    exact noErr_ok

theorem noDisp_loadCurrent (c : Cursor) : NoErr DispErr (loadCurrent c) := by
  unfold loadCurrent
  apply noErr_bind (noDisp_mVec3 c); rintro ⟨origin, c⟩
  apply noErr_bind (noDisp_lift _); rintro ⟨scale, c⟩
  apply noErr_bind (noDisp_lift _); rintro ⟨_, c⟩
  apply noErr_bind (noDisp_mVec3 c); rintro ⟨_, c⟩
  apply noErr_bind (noDisp_mVec3 c); rintro ⟨_, c⟩
  apply noErr_bind (noDisp_lift _); rintro ⟨seqCount, c⟩
  apply noErr_bind (noDisp_lift _); rintro ⟨seqOff, c⟩
  apply noErr_bind (noDisp_lift _); rintro ⟨smCount, c⟩
  apply noErr_bind (noDisp_lift _); rintro ⟨smOff, c⟩
  apply noErr_bind (noDisp_lift _); rintro ⟨_, c⟩
  apply noErr_bind (noDisp_lift _); rintro ⟨_, c⟩
  apply noErr_bind (noErr_readN noDisp_rdSeqRec _ _); rintro ⟨seqs, c⟩
  apply noErr_bind (noErr_readNIdx noDisp_rdSubmeshDesc 0 _ _); rintro ⟨descs, c⟩
  apply noErr_bind (noDisp_procSubmeshesCur origin scale seqs descs c)
  rintro ⟨surfs, c⟩
  exact noErr_ok

@[simp] theorem okE_bind {ε α β : Type} (a : α) (f : α → Except ε β) :
    (Except.ok a : Except ε α) >>= f = f a := rfl

@[simp] theorem errE_bind {ε α β : Type} (e : ε) (f : α → Except ε β) :
    (Except.error e : Except ε α) >>= f = Except.error e := rfl

theorem load_unfold (name : String) (src : Nat → List Tok) (i vr : Nat) (rest : List Tok) :
    load name ⟨src, .u32 i :: .u32 vr :: rest⟩ =
      if i ≠ VTXMDL_IDENT then .error (.unknownIdent i)
      else if toSigned32 vr > VTXMDL_CURRENTVERSION then
        .error (.unsupportedVersion (toSigned32 vr))
      else if toSigned32 vr = 1 then loadV1 name ⟨src, rest⟩
      else if toSigned32 vr = 2 then loadV2 ⟨src, rest⟩
      else loadCurrent ⟨src, rest⟩ := by
  simp only [load, rdU32_cons, rdI32_cons, liftE_some, okE_bind]

/-- C4: with the eight header bytes readable, `load` fails with `UnknownIdent`
exactly when the leading magic word differs from `VTXMDL_IDENT`; it fails with
`UnsupportedVersion` exactly when the ident matches and the signed version
exceeds `VTXMDL_CURRENTVERSION = 3`; and versions 3, 1 and 2 dispatch to the
offset-table, legacy static and sequential decoders respectively. -/
theorem load_dispatch_spec (name : String) (src : Nat → List Tok) (i vr : Nat)
    (rest : List Tok) :
    ((∃ j, load name ⟨src, .u32 i :: .u32 vr :: rest⟩ = .error (.unknownIdent j)) ↔
      i ≠ VTXMDL_IDENT)
    ∧ ((∃ w, load name ⟨src, .u32 i :: .u32 vr :: rest⟩ = .error (.unsupportedVersion w)) ↔
      (i = VTXMDL_IDENT ∧ toSigned32 vr > VTXMDL_CURRENTVERSION))
    ∧ (i = VTXMDL_IDENT → toSigned32 vr = 3 →
      load name ⟨src, .u32 i :: .u32 vr :: rest⟩ = loadCurrent ⟨src, rest⟩)
    ∧ (i = VTXMDL_IDENT → toSigned32 vr = 1 →
      load name ⟨src, .u32 i :: .u32 vr :: rest⟩ = loadV1 name ⟨src, rest⟩)
    ∧ (i = VTXMDL_IDENT → toSigned32 vr = 2 →
      load name ⟨src, .u32 i :: .u32 vr :: rest⟩ = loadV2 ⟨src, rest⟩) := by
  have hl := load_unfold name src i vr rest
  refine ⟨⟨?_, ?_⟩, ⟨?_, ?_⟩, ?_, ?_, ?_⟩
  · rintro ⟨j, hj⟩ hi
    rw [hl, if_neg (by simp [hi])] at hj
    split at hj
    · simp at hj
    · split at hj
      · exact (noDisp_loadV1 name _ _ hj) trivial
      · split at hj
        · exact (noDisp_loadV2 _ _ hj) trivial
        · exact (noDisp_loadCurrent _ _ hj) trivial
  · intro hi
    exact ⟨i, by rw [hl, if_pos hi]⟩
  · rintro ⟨w, hw⟩
    rw [hl] at hw
    by_cases hi : i = VTXMDL_IDENT
    · rw [if_neg (by simp [hi])] at hw
      refine ⟨hi, ?_⟩
      by_contra hv
      rw [if_neg hv] at hw
      split at hw
      · exact (noDisp_loadV1 name _ _ hw) trivial
      · split at hw
        · exact (noDisp_loadV2 _ _ hw) trivial
        · exact (noDisp_loadCurrent _ _ hw) trivial
    · rw [if_pos hi] at hw
      simp at hw
  · rintro ⟨hi, hv⟩
    exact ⟨toSigned32 vr, by rw [hl, if_neg (by simp [hi]), if_pos hv]⟩
  · intro hi h3
    rw [hl, if_neg (by simp [hi]),
      if_neg (by rw [h3]; simp [VTXMDL_CURRENTVERSION]),
      if_neg (by rw [h3]; simp), if_neg (by rw [h3]; simp)]
  · intro hi h1
    rw [hl, if_neg (by simp [hi]),
      if_neg (by rw [h1]; simp [VTXMDL_CURRENTVERSION]), if_pos h1]
  · intro hi h2
    rw [hl, if_neg (by simp [hi]),
      if_neg (by rw [h2]; simp [VTXMDL_CURRENTVERSION]),
      if_neg (by rw [h2]; simp), if_pos h2]

/-- Witness for C4: a version-3 header dispatches to the offset-table
decoder. -/
theorem load_dispatch_spec_check :
    load "m" ⟨fun _ => [], [.u32 VTXMDL_IDENT, .u32 3]⟩ =
      loadCurrent ⟨fun _ => [], []⟩ :=
  (load_dispatch_spec "m" (fun _ => []) VTXMDL_IDENT 3 []).2.2.1 rfl (by decide)

/-- C10: a matching ident with a version below 1 (zero or negative) is not
rejected: it falls into the `default` case of the dispatch switch and is
decoded by the same offset-table strategy as version 3. -/
theorem load_low_version_dispatch (name : String) (src : Nat → List Tok) (vr : Nat)
    (rest rest₂ : List Tok) (h : toSigned32 vr < 1) :
    load name ⟨src, .u32 VTXMDL_IDENT :: .u32 vr :: rest⟩ = loadCurrent ⟨src, rest⟩
    ∧ load name ⟨src, .u32 VTXMDL_IDENT :: .u32 3 :: rest₂⟩ = loadCurrent ⟨src, rest₂⟩ := by
  constructor
  · rw [load_unfold, if_neg (by simp), if_neg (by simp [VTXMDL_CURRENTVERSION]; omega),
      if_neg (by omega), if_neg (by omega)]
  · rw [load_unfold, if_neg (by simp),
      if_neg (by simp [VTXMDL_CURRENTVERSION, toSigned32]),
      if_neg (by simp [toSigned32]), if_neg (by simp [toSigned32])]

/-- Witness for C10: version 0 is decoded by the offset-table strategy. -/
theorem load_low_version_dispatch_check :
    load "m" ⟨fun _ => [], [.u32 VTXMDL_IDENT, .u32 0]⟩ =
      loadCurrent ⟨fun _ => [], []⟩ :=
  (load_low_version_dispatch "m" (fun _ => []) 0 [] [] (by decide)).1

/-- C9: `canParse` answers `true` exactly when the (lower-cased) extension is
`".bvm"`, the first 32-bit word is the model ident, and the following signed
version is at most `VTXMDL_CURRENTVERSION = 3`; and the by-value reader
argument means the caller's cursor is left untouched. -/
theorem canParse_spec (ext : String) (c : Cursor) :
    (canParse ext c = some true ↔
      (ext.toLower = ".bvm"
        ∧ ∃ v c₁ c₂, rdU32 c = some (VTXMDL_IDENT, c₁)
            ∧ rdI32 c₁ = some (v, c₂) ∧ v ≤ VTXMDL_CURRENTVERSION))
    ∧ (canParseCall ext c).2 = c := by
  refine ⟨?_, rfl⟩
  by_cases he : ext.toLower = ".bvm"
  · cases hu : rdU32 c with
    | none =>
      have hi : ∀ v d, rdU32 c ≠ some (v, d) := by simp [hu]
      simp only [canParse, extMatchesBvm, he, hu]
      simp [hi]
    | some p =>
      obtain ⟨u, d₁⟩ := p
      cases hv : rdI32 d₁ with
      | none =>
        simp only [canParse, extMatchesBvm, he, hu]
        simp [hv]
      | some q =>
        obtain ⟨ver, d₂⟩ := q
        simp only [canParse, extMatchesBvm, he, hu, hv]
        simp [hv, he, and_assoc]
  · have hb : extMatchesBvm ext = false := by
      simp [extMatchesBvm]
      exact he
    simp [canParse, hb, he]

/-! ## Frames produced by each revision (claim C1) -/

theorem bind_ok_dest {ε α β : Type} {x : Except ε α} {f : α → Except ε β} {b : β}
    (h : x >>= f = .ok b) : ∃ a, x = .ok a ∧ f a = .ok b := bindE_ok.mp h

theorem okImp_ok {ε α : Type} {P : α → Prop} {a : α} (h : P a) :
    OkImp P (.ok a : Except ε α) := by
  intro b hb
  cases hb
  exact h

theorem okImp_error {ε α : Type} {P : α → Prop} {e : ε} :
    OkImp P (.error e : Except ε α) := by
  intro b hb
  cases hb

theorem okImp_bind {ε α β : Type} {P : α → Prop} {Q : β → Prop}
    {x : Except ε α} {f : α → Except ε β}
    (hx : OkImp P x) (hf : ∀ a, P a → OkImp Q (f a)) : OkImp Q (x >>= f) := by
  intro b hb
  rcases bindE_ok.mp hb with ⟨a, ha, hfa⟩
  exact hf a (hx a ha) b hfa

theorem okImp_any {ε α : Type} (x : Except ε α) : OkImp (fun _ => True) x := by
  intro a _
  trivial

theorem okImp_liftE {ε α : Type} (tr : ε) (o : Option α) :
    OkImp (fun _ => True) (liftE tr o) := okImp_any _

theorem okImp_bind_any {ε α β : Type} {Q : β → Prop} {x : Except ε α}
    {f : α → Except ε β} (hf : ∀ a, OkImp Q (f a)) : OkImp Q (x >>= f) :=
  okImp_bind (okImp_any x) (fun a _ => hf a)

@[simp] theorem readN_zero {ε α : Type} (f : Cursor → Except ε (α × Cursor)) (c : Cursor) :
    readN f 0 c = .ok ([], c) := rfl

@[simp] theorem readNIdx_zero {ε α : Type} (f : Nat → Cursor → Except ε (α × Cursor))
    (i : Nat) (c : Cursor) : readNIdx f i 0 c = .ok ([], c) := rfl

@[simp] theorem szOfI32_zero : szOfI32 0 = 0 := rfl

theorem loadV1_frames (name : String) (c : Cursor) (m : ModelData)
    (h : loadV1 name c = .ok m) : m.frames = [⟨"staticpose"⟩] := by
  have key : OkImp (fun m : ModelData => m.frames = [⟨"staticpose"⟩]) (loadV1 name c) := by
    unfold loadV1
    apply okImp_bind_any; rintro ⟨base, c⟩
    apply okImp_bind_any; rintro ⟨_, c⟩
    apply okImp_bind_any; rintro ⟨_, c⟩
    apply okImp_bind_any; rintro ⟨_, c⟩
    apply okImp_bind_any; rintro ⟨origin, c⟩
    apply okImp_bind_any; rintro ⟨scale, c⟩
    apply okImp_bind_any; rintro ⟨numVerts, c⟩
    apply okImp_bind_any; rintro ⟨numIndices, c⟩
    apply okImp_bind_any; rintro ⟨_, c⟩
    apply okImp_bind_any; rintro ⟨_, c⟩
    apply okImp_bind_any; rintro ⟨tris, c⟩
    apply okImp_bind_any; rintro ⟨vnu, c⟩
    exact okImp_ok rfl
  exact key m h

theorem loadV2_zero_seq_frames (src : Nat → List Tok) (o1 o2 o3 sc : Rat)
    (nsm fl : Nat) (rest : List Tok) (m : ModelData)
    (h : loadV2 ⟨src, .f32 o1 :: .f32 o2 :: .f32 o3 :: .f32 sc :: .u32 nsm :: .u32 0 ::
      .u32 fl :: rest⟩ = .ok m) : m.frames = [⟨"staticpose"⟩] := by
  have key : OkImp (fun m : ModelData => m.frames = [⟨"staticpose"⟩])
      (loadV2 ⟨src, .f32 o1 :: .f32 o2 :: .f32 o3 :: .f32 sc :: .u32 nsm :: .u32 0 ::
        .u32 fl :: rest⟩) := by
    unfold loadV2
    simp only [mVec3, rdF32_cons, liftE_some, okE_bind, rdSzI32_cons, rdI32_cons,
      szOfI32_zero, readSeqTableV2, if_pos rfl, if_true]
    apply okImp_bind_any; rintro ⟨surfs, c⟩
    exact okImp_ok rfl
  exact key m h

theorem loadCurrent_zero_seq_frames (src : Nat → List Tok) (o1 o2 o3 sc b1 b2 b3 b4 b5 b6 : Rat)
    (fl so smc smo ms mo : Nat) (rest : List Tok) (m : ModelData)
    (h : loadCurrent ⟨src, .f32 o1 :: .f32 o2 :: .f32 o3 :: .f32 sc :: .u32 fl ::
      .f32 b1 :: .f32 b2 :: .f32 b3 :: .f32 b4 :: .f32 b5 :: .f32 b6 ::
      .u32 0 :: .u32 so :: .u32 smc :: .u32 smo :: .u32 ms :: .u32 mo :: rest⟩ = .ok m) :
    m.frames = [] := by
  have key : OkImp (fun m : ModelData => m.frames = [])
      (loadCurrent ⟨src, .f32 o1 :: .f32 o2 :: .f32 o3 :: .f32 sc :: .u32 fl ::
        .f32 b1 :: .f32 b2 :: .f32 b3 :: .f32 b4 :: .f32 b5 :: .f32 b6 ::
        .u32 0 :: .u32 so :: .u32 smc :: .u32 smo :: .u32 ms :: .u32 mo :: rest⟩) := by
    unfold loadCurrent
    simp only [mVec3, rdF32_cons, liftE_some, okE_bind, rdSzI32_cons, rdI32_cons,
      szOfI32_zero, seekTo_mk, readN_zero]
    apply okImp_bind_any; rintro ⟨descs, c⟩
    apply okImp_bind_any; rintro ⟨surfs, c⟩
    exact okImp_ok rfl
  exact key m h

/-- Counterexample to C1 as stated: on a version-3 asset whose sequence-count
field is 0, `load` succeeds with a model containing zero frames — the
offset-table decoder never synthesizes the implicit `"staticpose"`
sequence. -/
theorem loadCurrent_zero_seq_counterexample :
    load "ex" v3ZeroSeqInput = .ok { surfaces := [], frames := [] } ∧
      ¬ ∃ f, ({ surfaces := [], frames := [] } : ModelData).frames = [f] := by
  exact ⟨rfl, by simp⟩

/-- C1 (amended): zero-sequence v1 and v2 inputs decode to exactly one frame
named `"staticpose"`; a v3 input whose sequence-count field is 0 decodes to a
model with no frames at all. -/
theorem staticpose_frames_by_revision :
    (∀ (name : String) (c : Cursor) (m : ModelData),
      loadV1 name c = .ok m → m.frames = [⟨"staticpose"⟩])
    ∧ (∀ (src : Nat → List Tok) (o1 o2 o3 sc : Rat) (nsm fl : Nat) (rest : List Tok)
        (m : ModelData),
        loadV2 ⟨src, .f32 o1 :: .f32 o2 :: .f32 o3 :: .f32 sc :: .u32 nsm :: .u32 0 ::
          .u32 fl :: rest⟩ = .ok m → m.frames = [⟨"staticpose"⟩])
    ∧ (∀ (src : Nat → List Tok) (o1 o2 o3 sc b1 b2 b3 b4 b5 b6 : Rat)
        (fl so smc smo ms mo : Nat) (rest : List Tok) (m : ModelData),
        loadCurrent ⟨src, .f32 o1 :: .f32 o2 :: .f32 o3 :: .f32 sc :: .u32 fl ::
          .f32 b1 :: .f32 b2 :: .f32 b3 :: .f32 b4 :: .f32 b5 :: .f32 b6 ::
          .u32 0 :: .u32 so :: .u32 smc :: .u32 smo :: .u32 ms :: .u32 mo :: rest⟩ = .ok m →
        m.frames = []) :=
  ⟨loadV1_frames, loadV2_zero_seq_frames, loadCurrent_zero_seq_frames⟩

/-- Witness for C1: each conjunct applied to an explicit asset. -/
theorem staticpose_frames_by_revision_check :
    (({ surfaces :=
          [{ name := "m", skins := ["textures/models/t.btf"], triangles := [],
             uvs := [], perFramePos := [[]], perFrameNrm := [[]] }]
        frames := [⟨"staticpose"⟩] } : ModelData).frames = [⟨"staticpose"⟩])
    ∧ (({ surfaces := [], frames := [⟨"staticpose"⟩] } : ModelData).frames = [⟨"staticpose"⟩])
    ∧ (({ surfaces := [], frames := [] } : ModelData).frames = []) := by
  refine ⟨?_, ?_, ?_⟩
  · exact staticpose_frames_by_revision.1 "m"
      ⟨fun _ => [],
       [.str "t", .str "", .str "", .f32 0, .f32 0, .f32 0, .f32 0, .f32 1,
        .u32 0, .u32 0, .u32 0, .u32 0]⟩ _ rfl
  · exact staticpose_frames_by_revision.2.1 (fun _ => []) 0 0 0 1 0 0 [] _ rfl
  · exact staticpose_frames_by_revision.2.2 (fun _ => []) 0 0 0 1 0 0 0 0 0 0
      0 64 0 64 0 0 [] _ rfl

end BvmSpec

namespace BvmSkins

open BvmSpec

/-! ## Skin lists produced by each revision (claim C2) -/

theorem loadV1_skins (name : String) (c : Cursor) (m : ModelData)
    (h : loadV1 name c = .ok m) : ∀ s ∈ m.surfaces, s.skins.length = 1 := by
  have key : OkImp (fun m : ModelData => ∀ s ∈ m.surfaces, s.skins.length = 1)
      (loadV1 name c) := by
    unfold loadV1
    apply okImp_bind_any; rintro ⟨base, c⟩
    apply okImp_bind_any; rintro ⟨_, c⟩
    apply okImp_bind_any; rintro ⟨_, c⟩
    apply okImp_bind_any; rintro ⟨_, c⟩
    apply okImp_bind_any; rintro ⟨origin, c⟩
    apply okImp_bind_any; rintro ⟨scale, c⟩
    apply okImp_bind_any; rintro ⟨numVerts, c⟩
    apply okImp_bind_any; rintro ⟨numIndices, c⟩
    apply okImp_bind_any; rintro ⟨_, c⟩
    apply okImp_bind_any; rintro ⟨_, c⟩
    apply okImp_bind_any; rintro ⟨tris, c⟩
    apply okImp_bind_any; rintro ⟨vnu, c⟩
    apply okImp_ok
    simp
  exact key m h

theorem rdSubmeshV2_skins (origin : Vec3) (scale : Rat) (numSequences : Nat)
    (seqs : List BvmSeq) (idx : Nat) (c : Cursor) :
    OkImp (fun r : Surface × Cursor => 0 < r.1.skins.length)
      (rdSubmeshV2 origin scale numSequences seqs idx c) := by
  unfold rdSubmeshV2
  apply okImp_bind_any; rintro ⟨smIdent, c⟩
  dsimp only
  split
  · exact okImp_error
  · apply okImp_bind_any; rintro ⟨diffuse, c⟩
    apply okImp_bind_any; rintro ⟨_, c⟩
    apply okImp_bind_any; rintro ⟨_, c⟩
    apply okImp_bind_any; rintro ⟨_, c⟩
    apply okImp_bind_any; rintro ⟨numIndices, c⟩
    apply okImp_bind_any; rintro ⟨numVerts, c⟩
    apply okImp_bind_any; rintro ⟨numSkins, c⟩
    apply okImp_bind_any; rintro ⟨skins, c⟩
    apply okImp_bind_any; rintro ⟨tris, c⟩
    apply okImp_bind_any; rintro ⟨base, c⟩
    split
    · exact okImp_ok (by simp)
    · apply okImp_bind_any; rintro ⟨blocks, c⟩
      exact okImp_ok (by simp)

theorem okImp_readNIdx {ε α : Type} {P : α → Prop}
    {f : Nat → Cursor → Except ε (α × Cursor)}
    (hf : ∀ i c x c', f i c = .ok (x, c') → P x) :
    ∀ i n c l c', readNIdx f i n c = .ok (l, c') → ∀ x ∈ l, P x := by
  intro i n
  induction n generalizing i with
  | zero =>
    intro c l c' hr
    rw [readNIdx_zero] at hr
    injection hr with hr
    injection hr with hr₁ hr₂
    subst hr₁
    simp
  | succ n ih =>
    intro c l c' hr
    simp only [readNIdx] at hr
    rcases bindE_ok.mp hr with ⟨⟨x, c₁⟩, hfi, hr⟩
    rcases bindE_ok.mp hr with ⟨⟨xs, c₂⟩, hrec, hr⟩
    injection hr with hr
    injection hr with hr₁ hr₂
    subst hr₁
    intro y hy
    rcases List.mem_cons.mp hy with hy | hy
    · exact hy ▸ hf i c x c₁ hfi
    · exact ih (i + 1) c₁ xs c₂ hrec y hy

theorem loadV2_skins (c : Cursor) (m : ModelData) (h : loadV2 c = .ok m) :
    ∀ s ∈ m.surfaces, 0 < s.skins.length := by
  have key : OkImp (fun m : ModelData => ∀ s ∈ m.surfaces, 0 < s.skins.length)
      (loadV2 c) := by
    unfold loadV2
    apply okImp_bind_any; rintro ⟨origin, c⟩
    apply okImp_bind_any; rintro ⟨scale, c⟩
    apply okImp_bind_any; rintro ⟨numSubmeshes, c⟩
    apply okImp_bind_any; rintro ⟨numSequences, c⟩
    apply okImp_bind_any; rintro ⟨_, c⟩
    apply okImp_bind_any; rintro ⟨seqs, c⟩
    intro m hm
    rcases bindE_ok.mp hm with ⟨⟨surfs, c₂⟩, hsurf, hm⟩
    injection hm with hm
    subst hm
    exact okImp_readNIdx
      (fun i c x c' hx => rdSubmeshV2_skins origin scale numSequences seqs i c (x, c') hx)
      0 numSubmeshes c surfs c₂ hsurf
  exact key m h

theorem procSubmeshCur_zero_skins (origin : Vec3) (scale : Rat) (seqs : List BvmSeq)
    (d : SubmeshDesc) (c : Cursor) (s : Surface) (c' : Cursor) (h0 : d.numSkins = 0)
    (h : procSubmeshCur origin scale seqs d c = .ok (s, c')) : s.skins = [] := by
  have key : OkImp (fun r : Surface × Cursor => r.1.skins = [])
      (procSubmeshCur origin scale seqs d c) := by
    unfold procSubmeshCur
    have hsk : readSkinChainCur d.numSkins d.skinOff c = .ok ([], c) := by
      rw [h0]
      simp [readSkinChainCur]
    rw [hsk]
    simp only [okE_bind]
    apply okImp_bind_any; rintro ⟨uvs, c1⟩
    apply okImp_bind_any; rintro ⟨tris, c2⟩
    apply okImp_bind_any; rintro ⟨blocks, c3⟩
    exact okImp_ok rfl
  exact key (s, c') h

/-- Counterexample to C2 as stated: a version-3 submesh declaring zero skins
decodes to a surface whose skin name list is empty — the offset-table decoder
has no implicit diffuse skin. -/
theorem loadCurrent_empty_skins_counterexample :
    load "ex" v3ZeroSkinInput =
      .ok { surfaces := [{ name := "submesh_0", skins := [], triangles := [],
                           uvs := [], perFramePos := [], perFrameNrm := [] }]
            frames := [] } ∧
      ([] : List String).length = 0 :=
  ⟨rfl, rfl⟩

/-- C2 (amended): under the v1 decoder every surface has exactly one skin (the
synthesized path for the model's base texture) and under the v2 decoder every
surface has at least one skin (the submesh's own diffuse reference comes
first); under the v3 decoder the skin list comes entirely from the seeked skin
chain, and a submesh whose skin count is zero yields an empty skin list. -/
theorem skin_list_length_by_revision :
    (∀ (name : String) (c : Cursor) (m : ModelData),
      loadV1 name c = .ok m → ∀ s ∈ m.surfaces, s.skins.length = 1)
    ∧ (∀ (c : Cursor) (m : ModelData),
      loadV2 c = .ok m → ∀ s ∈ m.surfaces, 0 < s.skins.length)
    ∧ (∀ (origin : Vec3) (scale : Rat) (seqs : List BvmSeq) (d : SubmeshDesc)
        (c : Cursor) (s : Surface) (c' : Cursor), d.numSkins = 0 →
        procSubmeshCur origin scale seqs d c = .ok (s, c') → s.skins = []) :=
  ⟨loadV1_skins, loadV2_skins, procSubmeshCur_zero_skins⟩

/-- Witness for C2: the v1 conjunct applied to an explicit asset, and the v3
conjunct applied to an explicit zero-skin submesh descriptor. -/
theorem skin_list_length_by_revision_check :
    (["textures/models/t.btf"] : List String).length = 1 ∧
      ([] : List String) = [] := by
  constructor
  · exact skin_list_length_by_revision.1 "m"
      ⟨fun _ => [],
       [.str "t", .str "", .str "", .f32 0, .f32 0, .f32 0, .f32 0, .f32 1,
        .u32 0, .u32 0, .u32 0, .u32 0]⟩ _ rfl
      { name := "m", skins := ["textures/models/t.btf"], triangles := [],
        uvs := [], perFramePos := [[]], perFrameNrm := [[]] }
      (List.mem_singleton.mpr rfl)
  · exact skin_list_length_by_revision.2.2 ⟨0, 0, 0⟩ 1 []
      ⟨"submesh_0", 0, 0, 0, 0, 0, 0, 0⟩ ⟨fun _ => [], []⟩
      { name := "submesh_0", skins := [], triangles := [], uvs := [],
        perFramePos := [], perFrameNrm := [] }
      ⟨fun _ => [], []⟩ rfl rfl

end BvmSkins

namespace BvmTris

open BvmSpec

/-! ## Triangle index order by revision (claim C6) -/

theorem readN_triCur (src : Nat → List Tok) (l : List (Nat × Nat × Nat)) (rest : List Tok) :
    readN rdTriCurRec l.length ⟨src, encTriToks l ++ rest⟩ =
      .ok (l.map (fun t => (⟨t.1, t.2.2, t.2.1⟩ : BvmTriangle)), ⟨src, rest⟩) := by
  induction l with
  | nil => rfl
  | cons t ts ih =>
    obtain ⟨a, b, d⟩ := t
    simp only [encTriToks] at ih
    simp [encTriToks, readN, rdTriCurRec, rdSzU32_cons, liftE_some, okE_bind, ih]

theorem readN_triSeq (src : Nat → List Tok) (l : List (Nat × Nat × Nat)) (rest : List Tok) :
    readN rdTriSeqRec l.length ⟨src, encTriToks l ++ rest⟩ =
      .ok (l.map (fun t => (⟨szOfI32 t.1, szOfI32 t.2.1, szOfI32 t.2.2⟩ : BvmTriangle)),
        ⟨src, rest⟩) := by
  induction l with
  | nil => rfl
  | cons t ts ih =>
    obtain ⟨a, b, d⟩ := t
    simp only [encTriToks] at ih
    simp [encTriToks, readN, rdTriSeqRec, rdSzI32_cons, liftE_some, okE_bind, ih]

/-- C6: the offset-table (v3) triangle reader turns every stored index triple
`(a, b, c)` into the triangle `(a, c, b)` — second and third indices swapped —
while the v1/v2 triangle reader preserves the stored order `(a, b, c)`
(modulo the `size_t` cast of the signed indices). -/
theorem triangle_index_order_spec :
    (∀ (src : Nat → List Tok) (l : List (Nat × Nat × Nat)) (rest : List Tok),
      readN rdTriCurRec l.length ⟨src, encTriToks l ++ rest⟩ =
        .ok (l.map (fun t => (⟨t.1, t.2.2, t.2.1⟩ : BvmTriangle)), ⟨src, rest⟩))
    ∧ (∀ (src : Nat → List Tok) (l : List (Nat × Nat × Nat)) (rest : List Tok),
      readN rdTriSeqRec l.length ⟨src, encTriToks l ++ rest⟩ =
        .ok (l.map (fun t => (⟨szOfI32 t.1, szOfI32 t.2.1, szOfI32 t.2.2⟩ : BvmTriangle)),
          ⟨src, rest⟩)) :=
  ⟨readN_triCur, readN_triSeq⟩

end BvmTris

namespace BvmVerts

open BvmSpec

/-! ## The per-vertex transform of the v2/v3 decoders (claim C5) -/

theorem readN_vertPN (src : Nat → List Tok) (origin : Vec3) (m : Rat)
    (l : List (Vec3 × Vec3)) (k : Nat) (hk : k = l.length) (rest : List Tok) :
    readN (rdVertPN origin m) k ⟨src, encVertPN l ++ rest⟩ =
      .ok (l.map (fun pn => (vscale (vadd pn.1 origin) m, pn.2)), ⟨src, rest⟩) := by
  subst hk
  induction l with
  | nil => rfl
  | cons pn ps ih =>
    obtain ⟨p, n⟩ := pn
    simp only [encVertPN] at ih
    simp [encVertPN, readN, rdVertPN, mVec3, rdF32_cons, liftE_some, okE_bind, ih]

theorem readN_frames (src : Nat → List Tok) (origin : Vec3) (m : Rat) (nv : Nat) :
    ∀ (fl : List (List (Vec3 × Vec3))) (k : Nat) (rest : List Tok),
      k = fl.length → (∀ fr ∈ fl, fr.length = nv) →
      readN (readN (rdVertPN origin m) nv) k ⟨src, encFrames fl ++ rest⟩ =
        .ok (fl.map (fun fr => fr.map (fun pn => (vscale (vadd pn.1 origin) m, pn.2))),
          ⟨src, rest⟩) := by
  intro fl
  induction fl with
  | nil =>
    intro k rest hk _
    subst hk
    rfl
  | cons fr fs ih =>
    intro k rest hk hnv
    subst hk
    have hfr : fr.length = nv := hnv fr (by simp)
    simp only [List.length_cons, readN, encFrames, List.map_cons, List.flatten_cons,
      List.append_assoc]
    rw [readN_vertPN src origin m fr nv hfr.symm ((fs.map encVertPN).flatten ++ rest)]
    simp only [okE_bind]
    have ih' := ih fs.length ((rest : List Tok)) rfl
      (fun g hg => hnv g (List.mem_cons_of_mem _ hg))
    simp only [encFrames] at ih'
    rw [ih']
    simp [okE_bind]

theorem readFramesBlocks_enc (src : Nat → List Tok) (origin : Vec3) (scale : Rat) (nv : Nat) :
    ∀ (seqs : List BvmSeq) (dat : List (List (List (Vec3 × Vec3)))) (rest : List Tok),
      List.Forall₂ (fun (s : BvmSeq) (d : List (List (Vec3 × Vec3))) =>
        d.length = s.frames ∧ ∀ fr ∈ d, fr.length = nv) seqs dat →
      readFramesBlocks origin scale nv seqs ⟨src, encSeqData dat ++ rest⟩ =
        .ok (((seqs.zip dat).map (fun sd =>
          sd.2.map (fun fr => fr.map (fun pn =>
            (vscale (vadd pn.1 origin) (scale * sd.1.scale), pn.2))))).flatten,
          ⟨src, rest⟩) := by
  intro seqs
  induction seqs with
  | nil =>
    intro dat rest h
    cases h
    rfl
  | cons s ss ih =>
    intro dat rest h
    cases h with
    | cons hd htl =>
      obtain ⟨hd1, hd2⟩ := hd
      next d ds =>
        simp only [readFramesBlocks, encSeqData, List.map_cons, List.flatten_cons,
          List.append_assoc]
        rw [readN_frames src origin (scale * s.scale) nv d s.frames
          ((ds.map encFrames).flatten ++ rest) hd1.symm hd2]
        simp only [okE_bind]
        have ih' := ih ds rest htl
        simp only [encSeqData] at ih'
        rw [ih']
        simp [okE_bind]

/-- C5: the sequence reader substitutes 1.0 for a stored per-sequence scale
that is ≤ 0, and the shared per-frame vertex loop of the v2/v3 decoders stores
every position as `(raw_position + origin) * (global_scale * sequence_scale)`
while storing normals untransformed. -/
theorem vertex_transform_spec :
    (∀ (src : Nat → List Tok) (nm : String) (fr rt : Nat) (sc : Rat) (rest : List Tok),
      rdSeqRec ⟨src, .str nm :: .u32 fr :: .u32 rt :: .f32 sc :: rest⟩ =
        .ok (⟨nm, szOfI32 fr, toSigned32 rt, if sc ≤ 0 then 1 else sc⟩, ⟨src, rest⟩))
    ∧ (∀ (src : Nat → List Tok) (origin : Vec3) (scale : Rat) (nv : Nat)
        (seqs : List BvmSeq) (dat : List (List (List (Vec3 × Vec3)))) (rest : List Tok),
      List.Forall₂ (fun (s : BvmSeq) (d : List (List (Vec3 × Vec3))) =>
        d.length = s.frames ∧ ∀ fr ∈ d, fr.length = nv) seqs dat →
      readFramesBlocks origin scale nv seqs ⟨src, encSeqData dat ++ rest⟩ =
        .ok (((seqs.zip dat).map (fun sd =>
          sd.2.map (fun fr => fr.map (fun pn =>
            (vscale (vadd pn.1 origin) (scale * sd.1.scale), pn.2))))).flatten,
          ⟨src, rest⟩)) :=
  ⟨fun _ _ _ _ _ _ => rfl,
   fun src origin scale nv seqs dat rest h =>
     readFramesBlocks_enc src origin scale nv seqs dat rest h⟩

/-- Witness for C5: one sequence of one frame with one vertex, origin 0 and
both scales 1, decoded by `readFramesBlocks`; and the scale normalization
applied to a stored scale of −1. -/
theorem vertex_transform_spec_check :
    readFramesBlocks ⟨0, 0, 0⟩ 1 1 [⟨"run", 1, 10, 1⟩]
        ⟨fun _ => [], encSeqData [[[(⟨1, 2, 3⟩, ⟨4, 5, 6⟩)]]] ++ []⟩ =
      .ok ([[(⟨1, 2, 3⟩, ⟨4, 5, 6⟩)]], ⟨fun _ => [], []⟩) := by
  have h := vertex_transform_spec.2 (fun _ => []) ⟨0, 0, 0⟩ 1 1 [⟨"run", 1, 10, 1⟩]
    [[[(⟨1, 2, 3⟩, ⟨4, 5, 6⟩)]]] []
    (List.Forall₂.cons ⟨rfl, by simp⟩ List.Forall₂.nil)
  simpa [vadd, vscale] using h

end BvmVerts

namespace BtfFlip

open BvmSpec BtfSpec

/-! ## The vertical-flip post-process (claim C8)

`flipIter R h k f` performs the swaps of the flip loop for
`y = h/2 - k, ..., h/2 - 1`; the master lemma characterizes its effect on any
row/column: a row is replaced by its mirror exactly when one of the remaining
iterations touches it. -/

theorem fcong (f : Nat → Nat → Nat) {a b : Nat} (i : Nat) (hab : a = b) :
    f a i = f b i := by rw [hab]

theorem flipIter_spec (R h : Nat) :
    ∀ (k : Nat), k ≤ h / 2 → ∀ (f : Nat → Nat → Nat) (r i : Nat),
      flipIter R h k f r i =
        if i < R ∧ ((h / 2 - k ≤ r ∧ r < h / 2) ∨ (h - h / 2 ≤ r ∧ r + (h / 2 - k) + 1 ≤ h))
        then f (h - 1 - r) i else f r i := by
  intro k
  induction k with
  | zero =>
    intro _ f r i
    simp only [flipIter]
    split
    · rename_i hcond
      exfalso
      omega
    · rfl
  | succ k ih =>
    intro hk f r i
    simp only [flipIter]
    rw [ih (by omega) (swapRows R (h / 2 - (k + 1)) (h - 1 - (h / 2 - (k + 1))) f) r i]
    simp only [swapRows]
    split_ifs <;> first
      | rfl
      | omega
      | (exact fcong f i (by omega))
      | (exact (fcong f i (by omega)).symm)

theorem flipVert_eval (R h : Nat) (f : Nat → Nat → Nat) (r i : Nat) :
    flipVert R h f r i = if i < R ∧ r < h then f (h - 1 - r) i else f r i := by
  rw [flipVert, flipIter_spec R h (h / 2) le_rfl f r i]
  split_ifs <;> first
    | rfl
    | omega
    | (exact fcong f i (by omega))
    | (exact (fcong f i (by omega)).symm)

theorem flipVert_involutive (R h : Nat) (f : Nat → Nat → Nat) (r i : Nat) :
    flipVert R h (flipVert R h f) r i = f r i := by
  simp only [flipVert_eval]
  split_ifs <;> first
    | rfl
    | omega
    | (exact fcong f i (by omega))
    | (exact (fcong f i (by omega)).symm)

theorem flipBytes_length (R h : Nat) (l : List Nat) :
    (flipBytes R h l).length = l.length := by
  simp [flipBytes]

theorem flipBytes_getD (R h : Nat) (l : List Nat) (j : Nat) :
    (flipBytes R h l).getD j 0 =
      if j < l.length then
        flipVert R h (fun r i => l.getD (r * R + i) 0) (j / R) (j % R)
      else 0 := by
  by_cases hj : j < l.length
  · rw [if_pos hj]
    have hj' : j < (flipBytes R h l).length := by rw [flipBytes_length]; exact hj
    rw [List.getD_eq_getElem _ _ hj']
    simp [flipBytes]
  · rw [if_neg hj]
    apply List.getD_eq_default
    rw [flipBytes_length]
    omega

theorem flipBytes_row_rev (R h : Nat) (l : List Nat) (hl : l.length = h * R)
    (y i : Nat) (hy : y < h) (hi : i < R) :
    (flipBytes R h l).getD (y * R + i) 0 = l.getD ((h - 1 - y) * R + i) 0 := by
  have hR : 0 < R := by omega
  have hj : y * R + i < h * R := by
    calc y * R + i < y * R + R := by omega
    _ = (y + 1) * R := by ring
    _ ≤ h * R := Nat.mul_le_mul_right R (by omega)
  have hdiv : (y * R + i) / R = y := by
    rw [Nat.add_comm, Nat.add_mul_div_right i y hR, Nat.div_eq_of_lt hi]
    omega
  have hmod : (y * R + i) % R = i := by
    rw [Nat.mul_comm y R, Nat.mul_add_mod, Nat.mod_eq_of_lt hi]
  rw [flipBytes_getD, if_pos (by omega), hdiv, hmod, flipVert_eval,
    if_pos ⟨hi, hy⟩]

theorem flipBytes_involutive (R h : Nat) (l : List Nat) (hl : l.length = h * R) :
    flipBytes R h (flipBytes R h l) = l := by
  rcases Nat.eq_zero_or_pos R with hR | hR
  · subst hR
    have : l = [] := List.eq_nil_of_length_eq_zero (by omega)
    subst this
    rfl
  · apply List.ext_getElem
    · rw [flipBytes_length, flipBytes_length]
    · intro j hj₁ hj₂
      have hjl : j < l.length := hj₂
      obtain ⟨y, i, hiR, hyh, hj'⟩ : ∃ y i, i < R ∧ y < h ∧ j = y * R + i := by
        refine ⟨j / R, j % R, Nat.mod_lt _ hR, ?_, ?_⟩
        · apply Nat.div_lt_of_lt_mul
          rw [Nat.mul_comm]
          omega
        · rw [Nat.mul_comm]
          exact (Nat.div_add_mod j R).symm
      have h1 : (flipBytes R h (flipBytes R h l)).getD j 0 = l.getD j 0 := by
        rw [hj', flipBytes_row_rev R h (flipBytes R h l)
          (by rw [flipBytes_length]; exact hl) y i hyh hiR,
          flipBytes_row_rev R h l hl (h - 1 - y) i (by omega) hiR]
        apply fcong (fun a b => l.getD (a * R + b) 0) i
        omega
      rw [List.getD_eq_getElem _ _ hj₁, List.getD_eq_getElem _ _ hj₂] at h1
      exact h1

/-- C8: the vertical-flip post-process of `readBtfTexture` is a true row
reversal — on a buffer of `h` rows of `R = width * 4` bytes, output row `y`
equals input row `h - 1 - y`, byte for byte — and applying it twice
reproduces the original byte buffer. -/
theorem flip_vertical_spec :
    (∀ (R h : Nat) (l : List Nat), l.length = h * R →
      flipBytes R h (flipBytes R h l) = l)
    ∧ (∀ (R h : Nat) (l : List Nat), l.length = h * R →
      ∀ y i, y < h → i < R →
        (flipBytes R h l).getD (y * R + i) 0 = l.getD ((h - 1 - y) * R + i) 0) :=
  ⟨flipBytes_involutive, flipBytes_row_rev⟩

/-- Witness for C8: a 2×1 buffer is reversed and restored. -/
theorem flip_vertical_spec_check :
    flipBytes 1 2 (flipBytes 1 2 [7, 9]) = [7, 9] ∧
      (flipBytes 1 2 [7, 9]).getD (1 * 1 + 0) 0 = [7, 9].getD ((2 - 1 - 1) * 1 + 0) 0 :=
  ⟨flip_vertical_spec.1 1 2 [7, 9] rfl,
   flip_vertical_spec.2 1 2 [7, 9] rfl 1 0 (by decide) (by decide)⟩

end BtfFlip

namespace BtfFrames

open BvmSpec BtfSpec

/-! ## Frame-count validation and pixel extraction (claims C7 and C3) -/

theorem noMiss_lift {α : Type} (o : Option α) :
    NoErr MissErr (liftE .truncated o) :=
  noErr_liftE (by simp [MissErr])

theorem noMiss_btfReadMeta (ms mo : Nat) (c : Cursor) :
    NoErr MissErr (btfReadMeta ms mo c) := by
  unfold btfReadMeta
  split
  · apply noErr_bind (noMiss_lift _)
    rintro ⟨mt, c⟩
    dsimp only
    split
    · apply noErr_bind (noMiss_lift _); rintro ⟨sf, c⟩
      apply noErr_bind (noMiss_lift _); rintro ⟨ct, c⟩
      apply noErr_bind (noMiss_lift _); rintro ⟨v, c⟩
      exact noErr_ok
    · split
      · apply noErr_bind (noMiss_lift _); rintro ⟨_, c⟩
        apply noErr_bind (noMiss_lift _); rintro ⟨_, c⟩
        exact noErr_ok
      · exact noErr_ok
  · exact noErr_ok

theorem noMiss_btfPixels (flip : Bool) (w ht : Int) (sf ct : Int) (lv : Rat)
    (c : Cursor) : NoErr MissErr (btfPixels flip w ht sf ct lv c) := by
  unfold btfPixels
  apply noErr_bind (noMiss_lift _); rintro ⟨_, c⟩
  apply noErr_bind (noMiss_lift _); rintro ⟨_, c⟩
  apply noErr_bind (noMiss_lift _); rintro ⟨buf, c⟩
  exact noErr_ok

theorem noMiss_btfTail (flip : Bool) (w ht : Int) (fdo ms mo : Nat) (c : Cursor) :
    NoErr MissErr (btfTail flip w ht fdo ms mo c) := by
  unfold btfTail
  apply noErr_bind (noMiss_btfReadMeta ms mo c)
  rintro ⟨⟨sf, ct, lv⟩, c⟩
  apply noErr_bind (noMiss_lift _)
  rintro ⟨fid, c⟩
  dsimp only
  split
  · exact noErr_error (by simp [MissErr])
  · exact noMiss_btfPixels flip w ht sf ct lv _

theorem noMiss_btfAfterCounts (flip : Bool) (w ht : Int) (c : Cursor) :
    NoErr MissErr (btfAfterCounts flip w ht c) := by
  unfold btfAfterCounts
  apply noErr_bind (noMiss_lift _); rintro ⟨fds, c⟩
  apply noErr_bind (noMiss_lift _); rintro ⟨fdo, c⟩
  apply noErr_bind (noMiss_lift _); rintro ⟨ms, c⟩
  apply noErr_bind (noMiss_lift _); rintro ⟨mo, c⟩
  dsimp only
  split
  · exact noErr_error (by simp [MissErr])
  · exact noMiss_btfTail flip w ht fdo ms mo c

theorem readBtf_unfold (src : Nat → List Tok) (idw a b w hh cp fm an fc : Nat)
    (rest : List Tok) (flip : Bool) :
    readBtfTexture ⟨src, .u32 idw :: .u16 a :: .u16 b :: .u32 w :: .u32 hh ::
        .u16 cp :: .u16 fm :: .u16 an :: .u16 fc :: rest⟩ flip =
      if idw ≠ BTF_IDENT then .error (.unknownIdent idw)
      else if btfVersionOf (toSigned16 a) (toSigned16 b) > btfHighestVersion then
        .error (.unsupportedVersion (toSigned16 a) (toSigned16 b))
      else if toSigned16 fc ≤ 0 then .error (.missingFrames (toSigned16 fc))
      else btfAfterCounts flip (toSigned32 w) (toSigned32 hh) ⟨src, rest⟩ := by
  simp only [readBtfTexture, btfVers, btfTexinfo, rdU32_cons, rdI16_cons, rdI32_cons,
    liftE_some, okE_bind]

theorem btf_missing_frames_iff (src : Nat → List Tok) (a b w hh cp fm an fc : Nat)
    (rest : List Tok) (flip : Bool)
    (hver : btfVersionOf (toSigned16 a) (toSigned16 b) ≤ btfHighestVersion) :
    (∃ n, readBtfTexture ⟨src, .u32 BTF_IDENT :: .u16 a :: .u16 b :: .u32 w :: .u32 hh ::
        .u16 cp :: .u16 fm :: .u16 an :: .u16 fc :: rest⟩ flip =
      .error (.missingFrames n)) ↔ toSigned16 fc ≤ 0 := by
  rw [readBtf_unfold src BTF_IDENT a b w hh cp fm an fc rest flip,
    if_neg (by simp), if_neg (not_lt.mpr hver)]
  constructor
  · rintro ⟨n, hn⟩
    by_contra hfc
    rw [if_neg hfc] at hn
    exact (noMiss_btfAfterCounts flip (toSigned32 w) (toSigned32 hh) ⟨src, rest⟩ _ hn) trivial
  · intro hfc
    exact ⟨toSigned16 fc, by rw [if_pos hfc]⟩

theorem rdBytes_len (n : Nat) (c : Cursor) (bs : List Nat) (c' : Cursor)
    (h : rdBytes n c = some (bs, c')) : bs.length = n := by
  unfold rdBytes at h
  split at h
  · split at h
    · injection h with h
      injection h with h1 h2
      subst h1
      rename_i hle _
      simp [List.length_take]
      omega
    · cases h
  · cases h

theorem okImp_rdBytes (tr : BtfErr) (n : Nat) (c : Cursor) :
    OkImp (fun r : List Nat × Cursor => r.1.length = n) (liftE tr (rdBytes n c)) := by
  cases hb : rdBytes n c with
  | none => exact okImp_error
  | some p =>
    obtain ⟨bs, c'⟩ := p
    exact okImp_ok (rdBytes_len n c bs c' hb)

theorem btfPixels_ok_buffer (flip : Bool) (w ht : Int) (sf ct : Int) (lv : Rat)
    (c : Cursor) :
    OkImp (fun t : BtfTexture => t.buffer.length = t.width * t.height * 4)
      (btfPixels flip w ht sf ct lv c) := by
  intro t htt
  unfold btfPixels at htt
  rcases bindE_ok.mp htt with ⟨a, -, htt⟩
  rcases bindE_ok.mp htt with ⟨b, -, htt⟩
  rcases bindE_ok.mp htt with ⟨r, hr, htt⟩
  have hlen : r.1.length = szOfInt w * szOfInt ht * 4 :=
    okImp_rdBytes BtfErr.truncated (szOfInt w * szOfInt ht * 4) _ r hr
  injection htt with htt
  subst htt
  cases flip <;> simp [BtfFlip.flipBytes_length, hlen]

theorem btfTail_ok_buffer (flip : Bool) (w ht : Int) (fdo ms mo : Nat) (c : Cursor) :
    OkImp (fun t : BtfTexture => t.buffer.length = t.width * t.height * 4)
      (btfTail flip w ht fdo ms mo c) := by
  unfold btfTail
  apply okImp_bind_any; rintro ⟨⟨sf, ct, lv⟩, c⟩
  apply okImp_bind_any; rintro ⟨fid, c⟩
  dsimp only
  split
  · exact okImp_error
  · exact btfPixels_ok_buffer flip w ht sf ct lv _

theorem btfAfterCounts_ok_buffer (flip : Bool) (w ht : Int) (c : Cursor) :
    OkImp (fun t : BtfTexture => t.buffer.length = t.width * t.height * 4)
      (btfAfterCounts flip w ht c) := by
  unfold btfAfterCounts
  apply okImp_bind_any; rintro ⟨fds, c⟩
  apply okImp_bind_any; rintro ⟨fdo, c⟩
  apply okImp_bind_any; rintro ⟨ms, c⟩
  apply okImp_bind_any; rintro ⟨mo, c⟩
  dsimp only
  split
  · exact okImp_error
  · exact btfTail_ok_buffer flip w ht fdo ms mo c

theorem btfTexinfo_ok_buffer (flip : Bool) (c : Cursor) :
    OkImp (fun t : BtfTexture => t.buffer.length = t.width * t.height * 4)
      (btfTexinfo flip c) := by
  unfold btfTexinfo
  apply okImp_bind_any; rintro ⟨w, c⟩
  apply okImp_bind_any; rintro ⟨ht, c⟩
  apply okImp_bind_any; rintro ⟨cp, c⟩
  apply okImp_bind_any; rintro ⟨fm, c⟩
  apply okImp_bind_any; rintro ⟨an, c⟩
  apply okImp_bind_any; rintro ⟨fc, c⟩
  dsimp only
  split
  · exact okImp_error
  · exact btfAfterCounts_ok_buffer flip w ht c

theorem btfVers_ok_buffer (flip : Bool) (c : Cursor) :
    OkImp (fun t : BtfTexture => t.buffer.length = t.width * t.height * 4)
      (btfVers flip c) := by
  unfold btfVers
  apply okImp_bind_any; rintro ⟨mj, c⟩
  apply okImp_bind_any; rintro ⟨mn, c⟩
  dsimp only
  split
  · exact okImp_error
  · exact btfTexinfo_ok_buffer flip c

theorem readBtf_ok_buffer (c : Cursor) (flip : Bool) (t : BtfTexture)
    (h : readBtfTexture c flip = .ok t) :
    t.buffer.length = t.width * t.height * 4 := by
  have key : OkImp (fun t : BtfTexture => t.buffer.length = t.width * t.height * 4)
      (readBtfTexture c flip) := by
    unfold readBtfTexture
    apply okImp_bind_any; rintro ⟨ident, c⟩
    dsimp only
    split
    · exact okImp_error
    · exact btfVers_ok_buffer flip _
  exact key t h

/-- C7: with a readable header and a supported version, `readBtfTexture` fails
with `MissingFrames` exactly when the declared (signed 16-bit) frame count is
zero or negative; and every successfully decoded texture carries a mip-level
buffer of exactly `width * height * 4` bytes. -/
theorem btf_frame_count_spec :
    (∀ (src : Nat → List Tok) (a b w hh cp fm an fc : Nat) (rest : List Tok) (flip : Bool),
      btfVersionOf (toSigned16 a) (toSigned16 b) ≤ btfHighestVersion →
      ((∃ n, readBtfTexture ⟨src, .u32 BTF_IDENT :: .u16 a :: .u16 b :: .u32 w :: .u32 hh ::
          .u16 cp :: .u16 fm :: .u16 an :: .u16 fc :: rest⟩ flip =
        .error (.missingFrames n)) ↔ toSigned16 fc ≤ 0))
    ∧ (∀ (c : Cursor) (flip : Bool) (t : BtfTexture),
      readBtfTexture c flip = .ok t → t.buffer.length = t.width * t.height * 4) :=
  ⟨fun src a b w hh cp fm an fc rest flip hver =>
    btf_missing_frames_iff src a b w hh cp fm an fc rest flip hver,
   readBtf_ok_buffer⟩

/-- Witness for C7: a declared frame count of zero makes the decode fail with
`MissingFrames`, and a well-formed 1×1 texture decodes to a 4-byte buffer. -/
theorem btf_frame_count_spec_check :
    (∃ n, readBtfTexture btfZeroFramesInput false = .error (.missingFrames n)) ∧
      ([1, 2, 3, 4] : List Nat).length = 1 * 1 * 4 := by
  constructor
  · exact (btf_frame_count_spec.1 _ 1 0 1 1 0 0 0 0
      [.u32 4, .u32 50, .u32 0, .u32 0] false (by decide)).mpr (by decide)
  · exact btf_frame_count_spec.2 btfCompressedInput false
      { width := 1, height := 1, flags := 0, contents := 0, lightvalue := 0,
        buffer := [1, 2, 3, 4] } rfl

/-- C3 (evidence of the code bug): an explicit texture whose compression-kind
field is 1 (`DXT1`, a reserved compressed kind) is decoded successfully, its
payload read as raw RGBA — the source never inspects the compression field
and has no `UnsupportedCompression` failure path. -/
theorem readBtfTexture_ignores_compression :
    readBtfTexture btfCompressedInput false =
      .ok { width := 1, height := 1, flags := 0, contents := 0, lightvalue := 0,
            buffer := [1, 2, 3, 4] } := rfl

end BtfFrames
